import Mathlib

/-!
Verification development for the HK-weather MCP demo repository.

The repository drives a browser against the Hong Kong Observatory site,
exposes three weather fetches as MCP tools, and dispatches free-text user
queries to those tools either through a Bedrock LLM or through a keyword
matcher.  This file gives a shallow embedding of the pure decision logic of
that code (the response normalizer, the keyword dispatcher, the two
orchestration strategies, and the three server-side fetch wrappers) and
proves the specified properties about it.

External capabilities (the NovaAct browser engine, the MCP transport and the
Bedrock endpoint) are modelled as oracles passed in as arguments, exactly as
the specification treats them (opaque `act`, `call_tool`, `converse`).
The Python `json` standard-library module is modelled by an executable
serializer and parser over a JSON value type, together with a proved
serialize/parse round-trip.
-/

namespace HKWeather

/-! ## Python string primitives

Models of the Python `str` operations the client uses: `str.lower()` and the
substring-containment operator `in`. -/

/-- Model of Python `str.lower()`: character-wise lowercasing. -/
def pyLower (s : String) : String := String.mk (s.data.map Char.toLower)

/-- Does the pattern occur at the start of the character list? -/
def seqStartsWith : List Char → List Char → Bool
  | [], _ => true
  | _ :: _, [] => false
  | p :: ps, c :: cs => p = c && seqStartsWith ps cs

/-- Does the pattern occur anywhere inside the character list? -/
def seqContains (pat : List Char) : List Char → Bool
  | [] => seqStartsWith pat []
  | c :: cs => seqStartsWith pat (c :: cs) || seqContains pat cs

/-- Model of Python `pat in s` on strings: substring containment. -/
def pyIn (pat s : String) : Bool := seqContains pat.data s.data

/-- Propositional form of substring containment: some decomposition exists. -/
def hasSub (pat s : List Char) : Prop := ∃ a b, s = a ++ pat ++ b

theorem seqStartsWith_iff (pat cs : List Char) :
    seqStartsWith pat cs = true ↔ ∃ b, cs = pat ++ b := by
  induction pat generalizing cs with
  | nil => simp [seqStartsWith]
  | cons p ps ih =>
    cases cs with
    | nil => simp [seqStartsWith]
    | cons c cs =>
      simp only [seqStartsWith, Bool.and_eq_true, decide_eq_true_eq, ih]
      constructor
      · rintro ⟨rfl, b, rfl⟩; exact ⟨b, rfl⟩
      · rintro ⟨b, hb⟩
        cases hb
        exact ⟨rfl, b, rfl⟩

theorem seqContains_iff (pat s : List Char) :
    seqContains pat s = true ↔ hasSub pat s := by
  induction s with
  | nil =>
    simp only [seqContains, seqStartsWith_iff, hasSub]
    constructor
    · rintro ⟨b, hb⟩; exact ⟨[], b, hb⟩
    · rintro ⟨a, b, hab⟩
      have ha : a = [] := by
        cases a with
        | nil => rfl
        | cons x xs => simp at hab
      subst ha
      exact ⟨b, hab⟩
  | cons c cs ih =>
    simp only [seqContains, Bool.or_eq_true, seqStartsWith_iff, ih, hasSub]
    constructor
    · rintro (⟨b, hb⟩ | ⟨a, b, hab⟩)
      · exact ⟨[], b, hb⟩
      · exact ⟨c :: a, b, by simp [hab]⟩
    · rintro ⟨a, b, hab⟩
      cases a with
      | nil => exact Or.inl ⟨b, hab⟩
      | cons x xs =>
        simp only [List.cons_append, List.cons.injEq] at hab
        exact Or.inr ⟨xs, b, hab.2⟩

/-- Substring containment is transitive through a surrounding decomposition. -/
theorem hasSub_trans {p q s : List Char} (hpq : hasSub p q) (hqs : hasSub q s) :
    hasSub p s := by
  obtain ⟨a, b, rfl⟩ := hpq
  obtain ⟨c, d, rfl⟩ := hqs
  exact ⟨c ++ a, b ++ d, by simp⟩

/-- Character-wise mapping preserves substring containment. -/
theorem hasSub_map {p s : List Char} (f : Char → Char) (h : hasSub p s) :
    hasSub (p.map f) (s.map f) := by
  obtain ⟨a, b, rfl⟩ := h
  exact ⟨a.map f, b.map f, by simp⟩

/-! ## JSON values

A model of the JSON data manipulated by the system, as a mutual inductive so
that structural recursion and induction over arrays and objects stay simple.
Objects are association lists in insertion order, matching Python dicts. -/

mutual
inductive Json where
  | null : Json
  | bool (b : Bool) : Json
  | num (n : Int) : Json
  | str (s : String) : Json
  | arr (xs : JsonList) : Json
  | obj (kvs : JsonObj) : Json
deriving DecidableEq
inductive JsonList where
  | nil : JsonList
  | cons (hd : Json) (tl : JsonList) : JsonList
deriving DecidableEq
inductive JsonObj where
  | nil : JsonObj
  | cons (k : String) (v : Json) (tl : JsonObj) : JsonObj
deriving DecidableEq
end

/-- Association-list lookup on a JSON object, first match wins (models Python
dict lookup; serialized objects here never carry duplicate keys). -/
def JsonObj.lookup : JsonObj → String → Option Json
  | .nil, _ => none
  | .cons k v tl, key => if k = key then some v else JsonObj.lookup tl key

/-- Model of Python dict `.get(key, default)`: the default is used only when
the key is absent. -/
def JsonObj.getD (kvs : JsonObj) (key : String) (dflt : Json) : Json :=
  (kvs.lookup key).getD dflt

/-- Model of Python truthiness on JSON-shaped values. -/
def Json.truthy : Json → Bool
  | .null => false
  | .bool b => b
  | .num n => n ≠ 0
  | .str s => s ≠ ""
  | .arr .nil => false
  | .arr (.cons _ _) => true
  | .obj .nil => false
  | .obj (.cons _ _ _) => true

/-! ## Serialization (model of Python json.dumps with compact separators) -/

/-- Lowercase hexadecimal digit for a nibble. -/
def hexDigit (n : Nat) : Char :=
  Char.ofNat (if n < 10 then 48 + n else 87 + n)

/-- Decimal digits of a natural number, most significant first. -/
def natChars (n : Nat) : List Char :=
  if h : n < 10 then [Char.ofNat (48 + n)]
  else natChars (n / 10) ++ [Char.ofNat (48 + n % 10)]
  termination_by n
  decreasing_by
    exact Nat.div_lt_self (by omega) (by omega)

/-- Decimal rendering of an integer, matching Python str(int). -/
def intChars (i : Int) : List Char :=
  if i < 0 then '-' :: natChars i.natAbs else natChars i.toNat

/-- JSON string escaping of one character, as json.dumps performs it. -/
def escapeChar (c : Char) : List Char :=
  if c = '"' then ['\\', '"']
  else if c = '\\' then ['\\', '\\']
  else if c = '\n' then ['\\', 'n']
  else if c = '\t' then ['\\', 't']
  else if c = '\r' then ['\\', 'r']
  else if c = '\x08' then ['\\', 'b']
  else if c = '\x0c' then ['\\', 'f']
  else if c.toNat < 32 then
    ['\\', 'u', '0', '0', hexDigit (c.toNat / 16), hexDigit (c.toNat % 16)]
  else [c]

/-- JSON string escaping of a character sequence. -/
def escapeList : List Char → List Char
  | [] => []
  | c :: cs => escapeChar c ++ escapeList cs

mutual
/-- Serialization of a JSON value (model of Python json.dumps, compact). -/
def Json.ser : Json → List Char
  | .null => "null".data
  | .bool true => "true".data
  | .bool false => "false".data
  | .num i => intChars i
  | .str s => '"' :: (escapeList s.data ++ ['"'])
  | .arr xs => '[' :: (JsonList.ser xs ++ [']'])
  | .obj kvs => '\x7b' :: (JsonObj.ser kvs ++ ['\x7d'])
/-- Serialization of array elements, comma separated. -/
def JsonList.ser : JsonList → List Char
  | .nil => []
  | .cons v tl => Json.ser v ++ JsonList.serTail tl
/-- Serialization of the remaining array elements after the first. -/
def JsonList.serTail : JsonList → List Char
  | .nil => []
  | .cons v tl => ',' :: (Json.ser v ++ JsonList.serTail tl)
/-- Serialization of object members, comma separated. -/
def JsonObj.ser : JsonObj → List Char
  | .nil => []
  | .cons k v tl =>
      '"' :: (escapeList k.data ++ '"' :: ':' :: (Json.ser v ++ JsonObj.serTail tl))
/-- Serialization of the remaining object members after the first. -/
def JsonObj.serTail : JsonObj → List Char
  | .nil => []
  | .cons k v tl =>
      ',' :: '"' :: (escapeList k.data ++ '"' :: ':' :: (Json.ser v ++ JsonObj.serTail tl))
end

/-- Model of Python json.dumps. -/
def json_dumps (v : Json) : String := String.mk (Json.ser v)

/-! ## Parsing (model of Python json.loads) -/

/-- Skip JSON whitespace. -/
def skipWs : List Char → List Char
  | [] => []
  | c :: cs => if c = ' ' ∨ c = '\n' ∨ c = '\t' ∨ c = '\r' then skipWs cs else c :: cs

/-- Hexadecimal digit value of a character. -/
def hexVal (c : Char) : Option Nat :=
  if 48 ≤ c.toNat ∧ c.toNat ≤ 57 then some (c.toNat - 48)
  else if 97 ≤ c.toNat ∧ c.toNat ≤ 102 then some (c.toNat - 87)
  else if 65 ≤ c.toNat ∧ c.toNat ≤ 70 then some (c.toNat - 55)
  else none

/-- Consume an expected literal character sequence. -/
def expectLit : List Char → List Char → Option (List Char)
  | [], cs => some cs
  | _ :: _, [] => none
  | l :: ls, c :: cs => if c = l then expectLit ls cs else none

mutual
/-- Parse the body of a JSON string after the opening quote, handling
escape sequences; returns the decoded characters and the remainder. -/
def parseStringBody : List Char → Option (List Char × List Char)
  | [] => none
  | c :: cs =>
    if c = '"' then some ([], cs)
    else if c = '\\' then parseEscape cs
    else if c.toNat < 32 then none
    else (parseStringBody cs).map (fun p => (c :: p.1, p.2))
/-- Parse one escape sequence after the backslash, then the rest of the
string body. -/
def parseEscape : List Char → Option (List Char × List Char)
  | [] => none
  | e :: cs' =>
    if e = '"' then (parseStringBody cs').map (fun p => ('"' :: p.1, p.2))
    else if e = '\\' then (parseStringBody cs').map (fun p => ('\\' :: p.1, p.2))
    else if e = '/' then (parseStringBody cs').map (fun p => ('/' :: p.1, p.2))
    else if e = 'b' then (parseStringBody cs').map (fun p => ('\x08' :: p.1, p.2))
    else if e = 'f' then (parseStringBody cs').map (fun p => ('\x0c' :: p.1, p.2))
    else if e = 'n' then (parseStringBody cs').map (fun p => ('\n' :: p.1, p.2))
    else if e = 'r' then (parseStringBody cs').map (fun p => ('\r' :: p.1, p.2))
    else if e = 't' then (parseStringBody cs').map (fun p => ('\t' :: p.1, p.2))
    else if e = 'u' then parseUEscape cs'
    else none
/-- Parse the four hex digits of a unicode escape, then the rest of the
string body. -/
def parseUEscape : List Char → Option (List Char × List Char)
  | a :: b :: c2 :: d :: cs'' =>
    match hexVal a, hexVal b, hexVal c2, hexVal d with
    | some ha, some hb, some hc, some hd =>
      (parseStringBody cs'').map
        (fun p => (Char.ofNat (((ha * 16 + hb) * 16 + hc) * 16 + hd) :: p.1, p.2))
    | _, _, _, _ => none
  | _ => none
end

/-- Accumulate decimal digits. -/
def parseDigits (acc : Nat) : List Char → Nat × List Char
  | [] => (acc, [])
  | c :: cs =>
    if c.isDigit then parseDigits (acc * 10 + (c.toNat - 48)) cs else (acc, c :: cs)

/-- Parse digits of a negative integer token after the minus sign. -/
def parseNegTail : List Char → Option (Int × List Char)
  | [] => none
  | d :: cs' =>
    if d.isDigit then
      let p := parseDigits (d.toNat - 48) cs'
      some (-(p.1 : Int), p.2)
    else none

/-- Parse an integer token: optional minus sign then decimal digits. -/
def parseIntTok : List Char → Option (Int × List Char)
  | [] => none
  | c :: cs =>
    if c = '-' then parseNegTail cs
    else if c.isDigit then
      let p := parseDigits (c.toNat - 48) cs
      some ((p.1 : Int), p.2)
    else none

mutual
/-- Fueled recursive-descent JSON value parser. -/
def parseValue : Nat → List Char → Option (Json × List Char)
  | 0, _ => none
  | f + 1, cs =>
    match skipWs cs with
    | [] => none
    | c :: r =>
      if c = 'n' then (expectLit ['u', 'l', 'l'] r).map (fun r' => (Json.null, r'))
      else if c = 't' then (expectLit ['r', 'u', 'e'] r).map (fun r' => (Json.bool true, r'))
      else if c = 'f' then (expectLit ['a', 'l', 's', 'e'] r).map (fun r' => (Json.bool false, r'))
      else if c = '"' then (parseStringBody r).map (fun p => (Json.str (String.mk p.1), p.2))
      else if c = '[' then
        match skipWs r with
        | [] => none
        | d :: r' =>
          if d = ']' then some (Json.arr JsonList.nil, r')
          else (parseElems f (d :: r')).map (fun p => (Json.arr p.1, p.2))
      else if c = '\x7b' then
        match skipWs r with
        | [] => none
        | d :: r' =>
          if d = '\x7d' then some (Json.obj JsonObj.nil, r')
          else (parseMembers f (d :: r')).map (fun p => (Json.obj p.1, p.2))
      else (parseIntTok (c :: r)).map (fun p => (Json.num p.1, p.2))
/-- Parse one or more array elements then the closing bracket. -/
def parseElems : Nat → List Char → Option (JsonList × List Char)
  | 0, _ => none
  | f + 1, cs =>
    match parseValue f cs with
    | none => none
    | some (v, r) =>
      match skipWs r with
      | [] => none
      | d :: r' =>
        if d = ',' then (parseElems f r').map (fun p => (JsonList.cons v p.1, p.2))
        else if d = ']' then some (JsonList.cons v JsonList.nil, r')
        else none
/-- Parse one or more object members then the closing brace. -/
def parseMembers : Nat → List Char → Option (JsonObj × List Char)
  | 0, _ => none
  | f + 1, cs =>
    match skipWs cs with
    | [] => none
    | c :: r =>
      if c = '"' then
        match parseStringBody r with
        | none => none
        | some (k, r1) =>
          match skipWs r1 with
          | [] => none
          | d :: r2 =>
            if d = ':' then
              match parseValue f r2 with
              | none => none
              | some (v, r3) =>
                match skipWs r3 with
                | [] => none
                | e :: r4 =>
                  if e = ',' then
                    (parseMembers f r4).map
                      (fun p => (JsonObj.cons (String.mk k) v p.1, p.2))
                  else if e = '\x7d' then
                    some (JsonObj.cons (String.mk k) v JsonObj.nil, r4)
                  else none
            else none
      else none
end

/-- Model of Python json.loads: parse a complete JSON document;
trailing non-whitespace input is rejected. -/
def json_loads (s : String) : Option Json :=
  match parseValue (s.data.length + 1) s.data with
  | some (v, rest) => if skipWs rest = [] then some v else none
  | none => none

/-! ## Round-trip: the parser inverts the serializer -/

/-- The input does not start with a decimal digit (digit tokens are the only
greedy tokens, so this is the context invariant the round-trip needs). -/
def headNotDigit : List Char → Prop
  | [] => True
  | c :: _ => c.isDigit = false

theorem skipWs_cons_of {c : Char} (cs : List Char)
    (h : ¬(c = ' ' ∨ c = '\n' ∨ c = '\t' ∨ c = '\r')) : skipWs (c :: cs) = c :: cs := by
  rw [skipWs, if_neg h]

theorem psb_backslash (cs : List Char) :
    parseStringBody ('\\' :: cs) = parseEscape cs := by
  rw [parseStringBody]
  simp

theorem psb_escQ (R : List Char) :
    parseStringBody ('\\' :: '"' :: R) =
      (parseStringBody R).map (fun p => ('"' :: p.1, p.2)) := by
  rw [psb_backslash, parseEscape]
  simp

theorem psb_escB (R : List Char) :
    parseStringBody ('\\' :: '\\' :: R) =
      (parseStringBody R).map (fun p => ('\\' :: p.1, p.2)) := by
  rw [psb_backslash, parseEscape]
  simp

theorem psb_escN (R : List Char) :
    parseStringBody ('\\' :: 'n' :: R) =
      (parseStringBody R).map (fun p => ('\n' :: p.1, p.2)) := by
  rw [psb_backslash, parseEscape]
  simp

theorem psb_escT (R : List Char) :
    parseStringBody ('\\' :: 't' :: R) =
      (parseStringBody R).map (fun p => ('\t' :: p.1, p.2)) := by
  rw [psb_backslash, parseEscape]
  simp

theorem psb_escR (R : List Char) :
    parseStringBody ('\\' :: 'r' :: R) =
      (parseStringBody R).map (fun p => ('\r' :: p.1, p.2)) := by
  rw [psb_backslash, parseEscape]
  simp

theorem psb_escBS (R : List Char) :
    parseStringBody ('\\' :: 'b' :: R) =
      (parseStringBody R).map (fun p => ('\x08' :: p.1, p.2)) := by
  rw [psb_backslash, parseEscape]
  simp

theorem psb_escF (R : List Char) :
    parseStringBody ('\\' :: 'f' :: R) =
      (parseStringBody R).map (fun p => ('\x0c' :: p.1, p.2)) := by
  rw [psb_backslash, parseEscape]
  simp

theorem hexVal_hexDigit {n : Nat} (h : n < 16) : hexVal (hexDigit n) = some n := by
  interval_cases n <;> decide

theorem psb_escU (m1 m2 : Nat) (a b : Char) (R : List Char)
    (ha : hexVal a = some m1) (hb : hexVal b = some m2) :
    parseStringBody ('\\' :: 'u' :: '0' :: '0' :: a :: b :: R) =
      (parseStringBody R).map
        (fun p => (Char.ofNat (((0 * 16 + 0) * 16 + m1) * 16 + m2) :: p.1, p.2)) := by
  have h0 : hexVal '0' = some 0 := rfl
  rw [psb_backslash, parseEscape]
  simp [parseUEscape, h0, ha, hb]

/-- Round trip for string bodies: parsing undoes escaping. -/
theorem parseStringBody_escapeList (cs : List Char) : ∀ rest : List Char,
    parseStringBody (escapeList cs ++ '"' :: rest) = some (cs, rest) := by
  induction cs with
  | nil =>
    intro rest
    show parseStringBody ('"' :: rest) = _
    rw [parseStringBody]
    simp
  | cons c cs ih =>
    intro rest
    show parseStringBody ((escapeChar c ++ escapeList cs) ++ '"' :: rest) = _
    rw [List.append_assoc]
    unfold escapeChar
    split_ifs with h1 h2 h3 h4 h5 h6 h7 h8
    · subst h1
      simp [List.cons_append, List.nil_append, psb_escQ, ih]
    · subst h2
      simp [List.cons_append, List.nil_append, psb_escB, ih]
    · subst h3
      simp [List.cons_append, List.nil_append, psb_escN, ih]
    · subst h4
      simp [List.cons_append, List.nil_append, psb_escT, ih]
    · subst h5
      simp [List.cons_append, List.nil_append, psb_escR, ih]
    · subst h6
      simp [List.cons_append, List.nil_append, psb_escBS, ih]
    · subst h7
      simp [List.cons_append, List.nil_append, psb_escF, ih]
    · simp only [List.cons_append, List.nil_append]
      rw [psb_escU (c.toNat / 16) (c.toNat % 16) _ _ _
            (hexVal_hexDigit (by omega)) (hexVal_hexDigit (by omega)), ih]
      have harith : ((0 * 16 + 0) * 16 + c.toNat / 16) * 16 + c.toNat % 16 = c.toNat := by
        omega
      rw [harith, Char.ofNat_toNat]
      rfl
    · have hlt : ¬ c.toNat < 32 := h8
      show parseStringBody (c :: (escapeList cs ++ '"' :: rest)) = _
      rw [parseStringBody]
      simp [if_neg h1, if_neg h2, if_neg hlt, ih]

theorem digitChar_isDigit {n : Nat} (h : n < 10) : (Char.ofNat (48 + n)).isDigit = true := by
  interval_cases n <;> decide

theorem digitChar_toNat {n : Nat} (h : n < 10) : (Char.ofNat (48 + n)).toNat = 48 + n := by
  interval_cases n <;> decide

theorem natChars_head_digit (n : Nat) :
    ∃ d tl, natChars n = d :: tl ∧ d.isDigit = true := by
  induction n using Nat.strong_induction_on with
  | _ n ih =>
    rw [natChars]
    split
    · exact ⟨_, _, rfl, digitChar_isDigit (by omega)⟩
    · rename_i h
      obtain ⟨d, tl, hd, hdig⟩ := ih (n / 10) (Nat.div_lt_self (by omega) (by omega))
      exact ⟨d, tl ++ [Char.ofNat (48 + n % 10)], by rw [hd]; rfl, hdig⟩

theorem parseDigits_natChars (n : Nat) : ∀ (acc : Nat) (rest : List Char),
    parseDigits acc (natChars n ++ rest) =
      parseDigits (acc * 10 ^ (natChars n).length + n) rest := by
  induction n using Nat.strong_induction_on with
  | _ n ih =>
    intro acc rest
    rw [natChars]
    split
    · rename_i h
      simp only [List.cons_append, List.nil_append, parseDigits,
        digitChar_isDigit h, if_pos, List.length_cons, List.length_nil]
      have : acc * 10 + ((Char.ofNat (48 + n)).toNat - 48) = acc * 10 ^ (0 + 1) + n := by
        rw [digitChar_toNat h]; ring_nf; omega
      rw [this]
      rfl
    · rename_i h
      rw [List.append_assoc,
        ih (n / 10) (Nat.div_lt_self (by omega) (by omega)) acc _]
      have h10 : n % 10 < 10 := Nat.mod_lt _ (by omega)
      simp only [List.cons_append, List.nil_append, parseDigits,
        digitChar_isDigit h10, if_pos, List.length_append, List.length_cons,
        List.length_nil]
      have harith :
          (acc * 10 ^ (natChars (n / 10)).length + n / 10) * 10 +
              ((Char.ofNat (48 + n % 10)).toNat - 48) =
            acc * 10 ^ ((natChars (n / 10)).length + (0 + 1)) + n := by
        rw [digitChar_toNat h10, pow_succ]
        have hdm : n / 10 * 10 + n % 10 = n := by omega
        have : acc * (10 ^ (natChars (n / 10)).length * 10) =
            acc * 10 ^ (natChars (n / 10)).length * 10 := by ring
        rw [this]
        omega
      rw [harith]
      rfl

theorem parseDigits_stop {rest : List Char} (acc : Nat) (h : headNotDigit rest) :
    parseDigits acc rest = (acc, rest) := by
  cases rest with
  | nil => simp [parseDigits]
  | cons c cs =>
    simp only [headNotDigit] at h
    simp [parseDigits, h]

theorem parseDigits_natChars0 (n : Nat) (rest : List Char) (h : headNotDigit rest) :
    parseDigits 0 (natChars n ++ rest) = (n, rest) := by
  rw [parseDigits_natChars, parseDigits_stop _ h]
  simp

theorem intChars_head (i : Int) :
    ∃ c tl, intChars i = c :: tl ∧ (c.isDigit = true ∨ c = '-') := by
  rw [intChars]
  split
  · exact ⟨'-', _, rfl, Or.inr rfl⟩
  · obtain ⟨d, tl, hd, hdig⟩ := natChars_head_digit i.toNat
    exact ⟨d, tl, hd, Or.inl hdig⟩

theorem parseIntTok_intChars (i : Int) (rest : List Char) (h : headNotDigit rest) :
    parseIntTok (intChars i ++ rest) = some (i, rest) := by
  rw [intChars]
  split
  · rename_i hneg
    obtain ⟨d, tl, hd, hdig⟩ := natChars_head_digit i.natAbs
    have hstop := parseDigits_natChars0 i.natAbs rest h
    rw [hd] at hstop
    simp only [List.cons_append, parseDigits, hdig, if_pos] at hstop
    simp only [Nat.zero_mul, Nat.zero_add, List.append_eq] at hstop
    simp only [List.cons_append, parseIntTok, if_pos, hd, parseNegTail, hdig]
    rw [hstop]
    simp only [Option.some.injEq, Prod.mk.injEq]
    exact ⟨by omega, trivial⟩
  · rename_i hneg
    obtain ⟨d, tl, hd, hdig⟩ := natChars_head_digit i.toNat
    have hstop := parseDigits_natChars0 i.toNat rest h
    rw [hd] at hstop
    simp only [List.cons_append, parseDigits, hdig, if_pos] at hstop
    simp only [Nat.zero_mul, Nat.zero_add, List.append_eq] at hstop
    have hdm : ¬ d = '-' := by
      intro hedd
      rw [hedd] at hdig
      exact absurd hdig (by decide)
    rw [hd]
    simp only [List.cons_append, parseIntTok, if_neg hdm, hdig, if_pos]
    rw [hstop]
    simp only [Option.some.injEq, Prod.mk.injEq]
    exact ⟨by omega, trivial⟩

theorem numHead_cond {c : Char} (h : c.isDigit = true ∨ c = '-') :
    ¬(c = ' ' ∨ c = '\n' ∨ c = '\t' ∨ c = '\r') ∧
      c ≠ 'n' ∧ c ≠ 't' ∧ c ≠ 'f' ∧ c ≠ '"' ∧ c ≠ '[' ∧ c ≠ '\x7b' ∧ c ≠ ']' ∧
      c ≠ '\x7d' := by
  rcases h with h | h
  · refine ⟨?_, ?_, ?_, ?_, ?_, ?_, ?_, ?_, ?_⟩
    · rintro (rfl | rfl | rfl | rfl) <;> exact absurd h (by decide)
    all_goals (rintro rfl; exact absurd h (by decide))
  · subst h
    refine ⟨?_, ?_, ?_, ?_, ?_, ?_, ?_, ?_, ?_⟩ <;> decide

/-- Parsing a serialized integer token as a JSON value. -/
theorem parseValue_num_ser (f : Nat) (i : Int) (rest : List Char) (h : headNotDigit rest) :
    parseValue (f + 1) (intChars i ++ rest) = some (Json.num i, rest) := by
  obtain ⟨c, tl, hct, hc⟩ := intChars_head i
  obtain ⟨hws, hn, ht, hf, hq, hlb, hob, -, -⟩ := numHead_cond hc
  rw [hct, List.cons_append, parseValue, skipWs_cons_of _ hws]
  simp only [if_neg hn, if_neg ht, if_neg hf, if_neg hq, if_neg hlb, if_neg hob]
  rw [← List.cons_append, ← hct, parseIntTok_intChars i rest h]
  rfl

/-- Parsing a serialized JSON string as a JSON value. -/
theorem parseValue_str_ser (f : Nat) (s : String) (rest : List Char) :
    parseValue (f + 1) (Json.ser (Json.str s) ++ rest) = some (Json.str s, rest) := by
  have hser : Json.ser (Json.str s) = '"' :: (escapeList s.data ++ ['"']) := by
    simp [Json.ser]
  rw [hser, List.cons_append, List.append_assoc, List.singleton_append,
    parseValue, skipWs_cons_of _ (by decide)]
  simp only [if_neg (by decide : ¬('"' : Char) = 'n'),
    if_neg (by decide : ¬('"' : Char) = 't'), if_neg (by decide : ¬('"' : Char) = 'f'),
    if_pos rfl]
  rw [parseStringBody_escapeList]
  rfl

/-- Every serialized JSON value starts with a character that is not
whitespace and not a closing bracket. -/
theorem ser_head_cond (v : Json) :
    ∃ c tl, Json.ser v = c :: tl ∧
      ¬(c = ' ' ∨ c = '\n' ∨ c = '\t' ∨ c = '\r') ∧ c ≠ ']' ∧ c ≠ '\x7d' := by
  cases v with
  | null => exact ⟨'n', ['u', 'l', 'l'], by simp [Json.ser], by decide, by decide, by decide⟩
  | bool b =>
    cases b
    · exact ⟨'f', ['a', 'l', 's', 'e'], by simp [Json.ser], by decide, by decide, by decide⟩
    · exact ⟨'t', ['r', 'u', 'e'], by simp [Json.ser], by decide, by decide, by decide⟩
  | num i =>
    obtain ⟨c, tl, hct, hc⟩ := intChars_head i
    obtain ⟨hws, -, -, -, -, -, -, hrb, hcb⟩ := numHead_cond hc
    exact ⟨c, tl, by simp [Json.ser, hct], hws, hrb, hcb⟩
  | str s =>
    exact ⟨'"', escapeList s.data ++ ['"'], by simp [Json.ser], by decide, by decide,
      by decide⟩
  | arr xs =>
    exact ⟨'[', JsonList.ser xs ++ [']'], by simp [Json.ser], by decide, by decide,
      by decide⟩
  | obj kvs =>
    exact ⟨'\x7b', JsonObj.ser kvs ++ ['\x7d'], by simp [Json.ser], by decide, by decide,
      by decide⟩

theorem list_serTail_head (tl : JsonList) (rest : List Char) :
    headNotDigit (JsonList.serTail tl ++ ']' :: rest) := by
  cases tl with
  | nil =>
    have h : JsonList.serTail JsonList.nil = [] := by simp [JsonList.serTail]
    rw [h, List.nil_append]
    show (']').isDigit = false
    decide
  | cons v tl =>
    have h : JsonList.serTail (JsonList.cons v tl) =
        ',' :: (Json.ser v ++ JsonList.serTail tl) := by
      simp [JsonList.serTail]
    rw [h, List.cons_append]
    show (',').isDigit = false
    decide

theorem obj_serTail_head (tl : JsonObj) (rest : List Char) :
    headNotDigit (JsonObj.serTail tl ++ '\x7d' :: rest) := by
  cases tl with
  | nil =>
    have h : JsonObj.serTail JsonObj.nil = [] := by simp [JsonObj.serTail]
    rw [h, List.nil_append]
    show ('\x7d').isDigit = false
    decide
  | cons k v tl =>
    have h : JsonObj.serTail (JsonObj.cons k v tl) =
        ',' :: '"' :: (escapeList k.data ++ '"' :: ':' ::
          (Json.ser v ++ JsonObj.serTail tl)) := by
      simp [JsonObj.serTail]
    rw [h, List.cons_append]
    show (',').isDigit = false
    decide

mutual
/-- Fuel needed by the parser to consume a serialized value. -/
def Json.fuelN : Json → Nat
  | .arr xs => 1 + JsonList.fuelN xs
  | .obj kvs => 1 + JsonObj.fuelN kvs
  | .str _ => 1
  | .num _ => 1
  | .bool _ => 1
  | .null => 1
/-- Fuel needed by the parser to consume serialized array elements. -/
def JsonList.fuelN : JsonList → Nat
  | .nil => 0
  | .cons v tl => 1 + max (Json.fuelN v) (JsonList.fuelN tl)
/-- Fuel needed by the parser to consume serialized object members. -/
def JsonObj.fuelN : JsonObj → Nat
  | .nil => 0
  | .cons _ v tl => 1 + max (Json.fuelN v) (JsonObj.fuelN tl)
end

mutual

/-- The parser inverts the serializer on JSON values, given enough fuel and
a remainder that does not start with a digit. -/
theorem parseValue_ser (v : Json) : ∀ (f : Nat) (rest : List Char),
    Json.fuelN v ≤ f → headNotDigit rest →
    parseValue f (Json.ser v ++ rest) = some (v, rest) := by
  cases v with
  | null =>
    intro f rest hf hr
    obtain ⟨g, rfl⟩ : ∃ g, f = g + 1 := ⟨f - 1, by simp [Json.fuelN] at hf; omega⟩
    have hser : Json.ser Json.null = ['n', 'u', 'l', 'l'] := by decide
    rw [hser]
    simp only [List.cons_append, List.nil_append]
    rw [parseValue, skipWs_cons_of _ (by decide)]
    simp [expectLit]
  | bool b =>
    intro f rest hf hr
    obtain ⟨g, rfl⟩ : ∃ g, f = g + 1 := ⟨f - 1, by simp [Json.fuelN] at hf; omega⟩
    cases b
    · have hser : Json.ser (Json.bool false) = ['f', 'a', 'l', 's', 'e'] := by decide
      rw [hser]
      simp only [List.cons_append, List.nil_append]
      rw [parseValue, skipWs_cons_of _ (by decide)]
      simp [expectLit]
    · have hser : Json.ser (Json.bool true) = ['t', 'r', 'u', 'e'] := by decide
      rw [hser]
      simp only [List.cons_append, List.nil_append]
      rw [parseValue, skipWs_cons_of _ (by decide)]
      simp [expectLit]
  | num i =>
    intro f rest hf hr
    obtain ⟨g, rfl⟩ : ∃ g, f = g + 1 := ⟨f - 1, by simp [Json.fuelN] at hf; omega⟩
    have hser : Json.ser (Json.num i) = intChars i := by simp [Json.ser]
    rw [hser]
    exact parseValue_num_ser g i rest hr
  | str s =>
    intro f rest hf hr
    obtain ⟨g, rfl⟩ : ∃ g, f = g + 1 := ⟨f - 1, by simp [Json.fuelN] at hf; omega⟩
    exact parseValue_str_ser g s rest
  | arr xs =>
    cases xs with
    | nil =>
      intro f rest hf hr
      obtain ⟨g, rfl⟩ : ∃ g, f = g + 1 := ⟨f - 1, by simp [Json.fuelN] at hf; omega⟩
      have hser : Json.ser (Json.arr JsonList.nil) = ['[', ']'] := by
        simp [Json.ser, JsonList.ser]
      rw [hser]
      simp only [List.cons_append, List.nil_append]
      rw [parseValue, skipWs_cons_of _ (by decide)]
      simp [skipWs]
    | cons v tl =>
      intro f rest hf hr
      obtain ⟨g, rfl⟩ : ∃ g, f = g + 1 := ⟨f - 1, by simp [Json.fuelN] at hf; omega⟩
      have hfl : JsonList.fuelN (JsonList.cons v tl) ≤ g := by
        simp [Json.fuelN] at hf; omega
      have hser : Json.ser (Json.arr (JsonList.cons v tl)) =
          '[' :: (JsonList.ser (JsonList.cons v tl) ++ [']']) := by simp [Json.ser]
      rw [hser]
      simp only [List.cons_append, List.append_assoc, List.singleton_append]
      rw [parseValue, skipWs_cons_of _ (by decide)]
      obtain ⟨c, ctl, hct, hcws, hcrb, -⟩ := ser_head_cond v
      have hlser : JsonList.ser (JsonList.cons v tl) =
          Json.ser v ++ JsonList.serTail tl := by simp [JsonList.ser]
      rw [hlser, hct]
      simp only [List.cons_append, List.append_assoc]
      rw [skipWs_cons_of _ hcws]
      have hpe : parseElems g (c :: (ctl ++ (JsonList.serTail tl ++ ']' :: rest))) =
          some (JsonList.cons v tl, rest) := by
        have : c :: (ctl ++ (JsonList.serTail tl ++ ']' :: rest)) =
            JsonList.ser (JsonList.cons v tl) ++ ']' :: rest := by
          rw [hlser, hct]; simp
        rw [this]
        exact parseElems_ser (JsonList.cons v tl) g rest hfl (by simp) hr
      simp [if_neg hcrb, hpe]
  | obj kvs =>
    cases kvs with
    | nil =>
      intro f rest hf hr
      obtain ⟨g, rfl⟩ : ∃ g, f = g + 1 := ⟨f - 1, by simp [Json.fuelN] at hf; omega⟩
      have hser : Json.ser (Json.obj JsonObj.nil) = ['\x7b', '\x7d'] := by
        simp [Json.ser, JsonObj.ser]
      rw [hser]
      simp only [List.cons_append, List.nil_append]
      rw [parseValue, skipWs_cons_of _ (by decide)]
      simp [skipWs]
    | cons k v tl =>
      intro f rest hf hr
      obtain ⟨g, rfl⟩ : ∃ g, f = g + 1 := ⟨f - 1, by simp [Json.fuelN] at hf; omega⟩
      have hfo : JsonObj.fuelN (JsonObj.cons k v tl) ≤ g := by
        simp [Json.fuelN] at hf; omega
      have hser : Json.ser (Json.obj (JsonObj.cons k v tl)) =
          '\x7b' :: (JsonObj.ser (JsonObj.cons k v tl) ++ ['\x7d']) := by
        simp [Json.ser]
      rw [hser]
      simp only [List.cons_append, List.append_assoc, List.singleton_append]
      rw [parseValue, skipWs_cons_of _ (by decide)]
      have hoser : JsonObj.ser (JsonObj.cons k v tl) =
          '"' :: (escapeList k.data ++ '"' :: ':' ::
            (Json.ser v ++ JsonObj.serTail tl)) := by simp [JsonObj.ser]
      rw [hoser]
      simp only [List.cons_append, List.append_assoc]
      rw [skipWs_cons_of _ (by decide)]
      have hpm : parseMembers g
          ('"' :: (escapeList k.data ++ ('"' :: ':' ::
            (Json.ser v ++ (JsonObj.serTail tl ++ '\x7d' :: rest))))) =
          some (JsonObj.cons k v tl, rest) := by
        have : '"' :: (escapeList k.data ++ ('"' :: ':' ::
            (Json.ser v ++ (JsonObj.serTail tl ++ '\x7d' :: rest)))) =
            JsonObj.ser (JsonObj.cons k v tl) ++ '\x7d' :: rest := by
          rw [hoser]; simp
        rw [this]
        exact parseMembers_ser (JsonObj.cons k v tl) g rest hfo (by simp) hr
      simp [hpm]

/-- The parser inverts the serializer on nonempty JSON array element lists. -/
theorem parseElems_ser (xs : JsonList) : ∀ (f : Nat) (rest : List Char),
    JsonList.fuelN xs ≤ f → xs ≠ JsonList.nil → headNotDigit rest →
    parseElems f (JsonList.ser xs ++ ']' :: rest) = some (xs, rest) := by
  cases xs with
  | nil => intro f rest hf hne hr; exact absurd rfl hne
  | cons v tl =>
    intro f rest hf hne hr
    obtain ⟨g, rfl⟩ : ∃ g, f = g + 1 := ⟨f - 1, by simp [JsonList.fuelN] at hf; omega⟩
    have hfv : Json.fuelN v ≤ g := by
      simp [JsonList.fuelN] at hf
      have := le_max_left (Json.fuelN v) (JsonList.fuelN tl)
      omega
    have hft : JsonList.fuelN tl ≤ g := by
      simp [JsonList.fuelN] at hf
      have := le_max_right (Json.fuelN v) (JsonList.fuelN tl)
      omega
    have hlser : JsonList.ser (JsonList.cons v tl) =
        Json.ser v ++ JsonList.serTail tl := by simp [JsonList.ser]
    rw [hlser]
    simp only [List.append_assoc]
    rw [parseElems,
      parseValue_ser v g (JsonList.serTail tl ++ ']' :: rest) hfv
        (list_serTail_head tl rest)]
    cases tl with
    | nil =>
      have h0 : JsonList.serTail JsonList.nil = [] := by simp [JsonList.serTail]
      rw [h0, List.nil_append]
      simp [skipWs]
    | cons v2 tl2 =>
      have h1 : JsonList.serTail (JsonList.cons v2 tl2) =
          ',' :: (Json.ser v2 ++ JsonList.serTail tl2) := by simp [JsonList.serTail]
      rw [h1]
      simp only [List.cons_append, List.append_assoc]
      rw [skipWs_cons_of _ (by decide)]
      have hpe : parseElems g
          (Json.ser v2 ++ (JsonList.serTail tl2 ++ ']' :: rest)) =
          some (JsonList.cons v2 tl2, rest) := by
        have : Json.ser v2 ++ (JsonList.serTail tl2 ++ ']' :: rest) =
            JsonList.ser (JsonList.cons v2 tl2) ++ ']' :: rest := by simp [JsonList.ser]
        rw [this]
        exact parseElems_ser (JsonList.cons v2 tl2) g rest hft (by simp) hr
      simp [hpe]

/-- The parser inverts the serializer on nonempty JSON object member lists. -/
theorem parseMembers_ser (kvs : JsonObj) : ∀ (f : Nat) (rest : List Char),
    JsonObj.fuelN kvs ≤ f → kvs ≠ JsonObj.nil → headNotDigit rest →
    parseMembers f (JsonObj.ser kvs ++ '\x7d' :: rest) = some (kvs, rest) := by
  cases kvs with
  | nil => intro f rest hf hne hr; exact absurd rfl hne
  | cons k v tl =>
    intro f rest hf hne hr
    obtain ⟨g, rfl⟩ : ∃ g, f = g + 1 := ⟨f - 1, by simp [JsonObj.fuelN] at hf; omega⟩
    have hfv : Json.fuelN v ≤ g := by
      simp [JsonObj.fuelN] at hf
      have := le_max_left (Json.fuelN v) (JsonObj.fuelN tl)
      omega
    have hft : JsonObj.fuelN tl ≤ g := by
      simp [JsonObj.fuelN] at hf
      have := le_max_right (Json.fuelN v) (JsonObj.fuelN tl)
      omega
    have hoser : JsonObj.ser (JsonObj.cons k v tl) =
        '"' :: (escapeList k.data ++ '"' :: ':' ::
          (Json.ser v ++ JsonObj.serTail tl)) := by simp [JsonObj.ser]
    rw [hoser]
    simp only [List.cons_append, List.append_assoc]
    rw [parseMembers, skipWs_cons_of _ (by decide)]
    have hkey : parseStringBody
        (escapeList k.data ++ '"' :: ':' ::
          (Json.ser v ++ (JsonObj.serTail tl ++ '\x7d' :: rest))) =
        some (k.data, ':' :: (Json.ser v ++ (JsonObj.serTail tl ++ '\x7d' :: rest))) :=
      parseStringBody_escapeList k.data _
    have hpv := parseValue_ser v g (JsonObj.serTail tl ++ '\x7d' :: rest) hfv
      (obj_serTail_head tl rest)
    cases tl with
    | nil =>
      have h0 : JsonObj.serTail JsonObj.nil = [] := by simp [JsonObj.serTail]
      rw [h0, List.nil_append] at hpv hkey ⊢
      simp [hkey, hpv, skipWs]
    | cons k2 v2 tl2 =>
      have h1 : JsonObj.serTail (JsonObj.cons k2 v2 tl2) =
          ',' :: JsonObj.ser (JsonObj.cons k2 v2 tl2) := by
        simp [JsonObj.serTail, JsonObj.ser]
      rw [h1] at hpv hkey ⊢
      simp only [List.cons_append, List.append_assoc] at hpv hkey
      have hpm2 : parseMembers g
          (JsonObj.ser (JsonObj.cons k2 v2 tl2) ++ '\x7d' :: rest) =
          some (JsonObj.cons k2 v2 tl2, rest) :=
        parseMembers_ser (JsonObj.cons k2 v2 tl2) g rest hft (by simp) hr
      simp [hkey, hpv, hpm2, skipWs]

end

theorem intChars_length_pos (i : Int) : 1 ≤ (intChars i).length := by
  obtain ⟨c, tl, hct, -⟩ := intChars_head i
  rw [hct]
  simp

theorem list_serTail_len_cons (v2 : Json) (tl2 : JsonList) :
    (JsonList.serTail (JsonList.cons v2 tl2)).length =
      (JsonList.ser (JsonList.cons v2 tl2)).length + 1 := by
  simp [JsonList.serTail, JsonList.ser]

theorem obj_serTail_len_cons (k2 : String) (v2 : Json) (tl2 : JsonObj) :
    (JsonObj.serTail (JsonObj.cons k2 v2 tl2)).length =
      (JsonObj.ser (JsonObj.cons k2 v2 tl2)).length + 1 := by
  simp [JsonObj.serTail, JsonObj.ser]

mutual

/-- The fuel a value needs is bounded by the length of its serialization. -/
theorem fuelN_le_length (v : Json) : Json.fuelN v ≤ (Json.ser v).length := by
  cases v with
  | null => simp [Json.fuelN, Json.ser]
  | bool b => cases b <;> simp [Json.fuelN, Json.ser]
  | num i =>
    have := intChars_length_pos i
    simp only [Json.fuelN, Json.ser]
    omega
  | str s => simp [Json.fuelN, Json.ser]
  | arr xs =>
    have h := fuelL_le_length xs
    simp only [Json.fuelN, Json.ser, List.length_cons, List.length_append,
      List.length_singleton]
    omega
  | obj kvs =>
    have h := fuelO_le_length kvs
    simp only [Json.fuelN, Json.ser, List.length_cons, List.length_append,
      List.length_singleton]
    omega

/-- The fuel an element list needs is bounded by its serialization length. -/
theorem fuelL_le_length (xs : JsonList) :
    JsonList.fuelN xs ≤ (JsonList.ser xs).length + 1 := by
  cases xs with
  | nil => simp [JsonList.fuelN, JsonList.ser]
  | cons v tl =>
    have hv := fuelN_le_length v
    have hlen : (JsonList.ser (JsonList.cons v tl)).length =
        (Json.ser v).length + (JsonList.serTail tl).length := by
      simp [JsonList.ser]
    cases tl with
    | nil =>
      have h0 : (JsonList.serTail JsonList.nil).length = 0 := by simp [JsonList.serTail]
      simp only [JsonList.fuelN, hlen, h0]
      have : max (Json.fuelN v) (JsonList.fuelN JsonList.nil) = Json.fuelN v := by
        simp [JsonList.fuelN]
      omega
    | cons v2 tl2 =>
      have ht := fuelL_le_length (JsonList.cons v2 tl2)
      have h1 := list_serTail_len_cons v2 tl2
      have hmax : max (Json.fuelN v) (JsonList.fuelN (JsonList.cons v2 tl2)) ≤
          (Json.ser v).length + (JsonList.serTail (JsonList.cons v2 tl2)).length := by
        apply max_le <;> omega
      calc JsonList.fuelN (JsonList.cons v (JsonList.cons v2 tl2))
          = 1 + max (Json.fuelN v) (JsonList.fuelN (JsonList.cons v2 tl2)) := by
            rw [JsonList.fuelN]
        _ ≤ 1 + ((Json.ser v).length +
            (JsonList.serTail (JsonList.cons v2 tl2)).length) :=
            Nat.add_le_add_left hmax 1
        _ ≤ (JsonList.ser (JsonList.cons v (JsonList.cons v2 tl2))).length + 1 := by
            rw [hlen]; omega

/-- The fuel a member list needs is bounded by its serialization length. -/
theorem fuelO_le_length (kvs : JsonObj) :
    JsonObj.fuelN kvs ≤ (JsonObj.ser kvs).length + 1 := by
  cases kvs with
  | nil => simp [JsonObj.fuelN, JsonObj.ser]
  | cons k v tl =>
    have hv := fuelN_le_length v
    have hlen : (JsonObj.ser (JsonObj.cons k v tl)).length =
        (escapeList k.data).length + 3 + (Json.ser v).length +
          (JsonObj.serTail tl).length := by
      simp [JsonObj.ser]
      omega
    cases tl with
    | nil =>
      have h0 : (JsonObj.serTail JsonObj.nil).length = 0 := by simp [JsonObj.serTail]
      have : max (Json.fuelN v) (JsonObj.fuelN JsonObj.nil) = Json.fuelN v := by
        simp [JsonObj.fuelN]
      simp only [JsonObj.fuelN, hlen, h0]
      omega
    | cons k2 v2 tl2 =>
      have ht := fuelO_le_length (JsonObj.cons k2 v2 tl2)
      have h1 := obj_serTail_len_cons k2 v2 tl2
      have hmax : max (Json.fuelN v) (JsonObj.fuelN (JsonObj.cons k2 v2 tl2)) ≤
          (Json.ser v).length + (JsonObj.serTail (JsonObj.cons k2 v2 tl2)).length := by
        apply max_le <;> omega
      calc JsonObj.fuelN (JsonObj.cons k v (JsonObj.cons k2 v2 tl2))
          = 1 + max (Json.fuelN v) (JsonObj.fuelN (JsonObj.cons k2 v2 tl2)) := by
            rw [JsonObj.fuelN]
        _ ≤ 1 + ((Json.ser v).length +
            (JsonObj.serTail (JsonObj.cons k2 v2 tl2)).length) :=
            Nat.add_le_add_left hmax 1
        _ ≤ (JsonObj.ser (JsonObj.cons k v (JsonObj.cons k2 v2 tl2))).length + 1 := by
            rw [hlen]; omega

end

/-- Full round trip: parsing a dumped JSON document recovers the value, for
every JSON value (the model counterpart of json.loads(json.dumps(v)) == v). -/
theorem json_loads_dumps (v : Json) : json_loads (json_dumps v) = some v := by
  have hdata : (json_dumps v).data = Json.ser v := rfl
  have hp := parseValue_ser v ((Json.ser v).length + 1) []
    (by have := fuelN_le_length v; omega) trivial
  rw [List.append_nil] at hp
  simp [json_loads, hdata, hp, skipWs]

/-- A dumped JSON document is never the empty string. -/
theorem json_dumps_ne_empty (v : Json) : json_dumps v ≠ "" := by
  obtain ⟨c, tl, hct, -, -, -⟩ := ser_head_cond v
  simp [json_dumps, hct]
  intro h
  exact absurd (congrArg String.data h) (by simp [hct])

/-! ## Python value rendering

Models of Python str() and repr() as f-string interpolation applies them to
JSON-shaped values (repr quoting simplified to single quotes). -/

mutual
/-- Model of Python str() on a JSON-shaped value. -/
def pyStr : Json → String
  | .null => "None"
  | .bool true => "True"
  | .bool false => "False"
  | .num n => String.mk (intChars n)
  | .str s => s
  | .arr xs => "[" ++ pyReprList xs ++ "]"
  | .obj kvs => "\x7b" ++ pyReprObj kvs ++ "\x7d"
/-- Model of Python repr() on a JSON-shaped value. -/
def pyRepr : Json → String
  | .null => "None"
  | .bool true => "True"
  | .bool false => "False"
  | .num n => String.mk (intChars n)
  | .str s => "\x27" ++ s ++ "\x27"
  | .arr xs => "[" ++ pyReprList xs ++ "]"
  | .obj kvs => "\x7b" ++ pyReprObj kvs ++ "\x7d"
/-- Comma-joined reprs of list elements. -/
def pyReprList : JsonList → String
  | .nil => ""
  | .cons v tl => pyRepr v ++ pyReprListTail tl
/-- Remaining list-element reprs after the first. -/
def pyReprListTail : JsonList → String
  | .nil => ""
  | .cons v tl => ", " ++ pyRepr v ++ pyReprListTail tl
/-- Comma-joined reprs of dict members. -/
def pyReprObj : JsonObj → String
  | .nil => ""
  | .cons k v tl => "\x27" ++ k ++ "\x27: " ++ pyRepr v ++ pyReprObjTail tl
/-- Remaining dict-member reprs after the first. -/
def pyReprObjTail : JsonObj → String
  | .nil => ""
  | .cons k v tl => ", \x27" ++ k ++ "\x27: " ++ pyRepr v ++ pyReprObjTail tl
end

/-- Model of Python dict .get(key) with the implicit None default (used on
values statically known to be dicts). -/
def Json.get (j : Json) (key : String) : Json :=
  match j with
  | .obj kvs => kvs.getD key Json.null
  | _ => Json.null

/-! ## Response Normalizer (client-side envelope decoding) -/

/-- One content element of an MCP tool-result envelope; the text field is
absent when the element has no text attribute. -/
structure ContentItem where
  text : Option String

/-- An MCP tool-result envelope as the client observes it: it may expose a
content list, a direct value field, both, or neither (hasattr checks). -/
structure ToolResponse where
  content : Option (List ContentItem)
  value : Option Json

/-- Message of the exception Python json.loads raises on invalid input.
The json module is external to the repository; only the existence of a
message string matters to the embedding, not its exact text. -/
def jsonDecodeErrorMsg (s : String) : String :=
  "Invalid JSON document: " ++ s

/-- The default failure value the normalizer returns when no extraction
approach applies. -/
def could_not_extract : Json :=
  Json.obj (JsonObj.cons "success" (Json.bool false)
    (JsonObj.cons "error" (Json.str "Could not extract response data") JsonObj.nil))

/-- Embedding of AgenticWeatherAssistant.extract_response_data (the
identical function also appears in HKWeatherMCPClient): if the envelope has
a non-empty content list whose first element carries non-empty text, parse
that text as JSON (a parse exception becomes a tagged failure carrying the
exception message); otherwise, if a value field exists, return it as-is;
otherwise return the tagged default failure. -/
def extract_response_data (tool_response : ToolResponse) : Json :=
  match tool_response.content with
  | some (text_content :: _) =>
    match text_content.text with
    | some t =>
      if t = "" then tool_response.value.getD could_not_extract
      else
        match json_loads t with
        | some v => v
        | none =>
          Json.obj (JsonObj.cons "success" (Json.bool false)
            (JsonObj.cons "error" (Json.str (jsonDecodeErrorMsg t)) JsonObj.nil))
    | none => tool_response.value.getD could_not_extract
  | _ => tool_response.value.getD could_not_extract

/-! ## Weather Fetcher (server side)

The NovaAct browser engine is external; it is modelled as an oracle giving
the outcome of session construction, of one extraction act per instruction,
and of one screenshot capture per name. -/

/-- Oracle for the external NovaAct browser-automation capability. -/
structure BrowserBehavior where
  startSession : Except String Unit
  act : String → Except String String
  screenshot : String → Except String String

/-- The fixed extraction instruction of run_nova_act_current_weather. -/
def currentWeatherInstruction : String :=
  "Read and extract the current weather information for Hong Kong including temperature, humidity, and weather conditions"

/-- The fixed extraction instruction of run_nova_act_forecast (always the
9-day instruction, for every days argument). -/
def forecastInstruction : String :=
  "Read and extract the complete 9-day weather forecast information visible on this page"

/-- The fixed extraction instruction of run_nova_act_warnings. -/
def warningsInstruction : String :=
  "Read and extract any current weather warnings or alerts for Hong Kong"

/-- Embedding of capture_screenshot: returns a dict carrying the path on
success or the error message on failure; the exception never escapes (the
temp-dir path generation is folded into the screenshot oracle). -/
def capture_screenshot (nova_act : BrowserBehavior) (name : String) : Json :=
  match nova_act.screenshot name with
  | .ok path =>
    Json.obj (JsonObj.cons "screenshot_path" (Json.str path)
      (JsonObj.cons "success" (Json.bool true) JsonObj.nil))
  | .error e =>
    Json.obj (JsonObj.cons "error" (Json.str e)
      (JsonObj.cons "success" (Json.bool false) JsonObj.nil))

/-- Embedding of run_nova_act_current_weather (Python defaults:
headless=False, take_screenshot=True).  The second component records the
act instructions issued to the browser.  The headless flag is passed to the
external engine and does not influence the modelled computation. -/
def run_nova_act_current_weather (b : BrowserBehavior)
    (headless take_screenshot : Bool) : Json × List String :=
  match b.startSession with
  | .error e =>
    (Json.obj (JsonObj.cons "success" (Json.bool false)
      (JsonObj.cons "message" (Json.str ("Error retrieving current weather: " ++ e))
      (JsonObj.cons "error" (Json.str e) JsonObj.nil))), [])
  | .ok _ =>
    match b.act currentWeatherInstruction with
    | .error e =>
      (Json.obj (JsonObj.cons "success" (Json.bool false)
        (JsonObj.cons "message" (Json.str ("Error retrieving current weather: " ++ e))
        (JsonObj.cons "error" (Json.str e) JsonObj.nil))), [currentWeatherInstruction])
    | .ok response =>
      let screenshot_result : Option Json :=
        if take_screenshot then some (capture_screenshot b "hk_current_weather")
        else none
      (Json.obj (JsonObj.cons "success" (Json.bool true)
        (JsonObj.cons "message"
          (Json.str "Successfully retrieved current weather in Hong Kong")
        (JsonObj.cons "weather_data" (Json.str response)
        (JsonObj.cons "screenshot_path"
          (match screenshot_result with
           | some r => r.get "screenshot_path"
           | none => Json.null) JsonObj.nil)))), [currentWeatherInstruction])

/-- Embedding of run_nova_act_forecast (Python defaults: days=9,
headless=False, take_screenshot=True).  The days argument appears only in
the success message; the extraction instruction is the fixed 9-day one. -/
def run_nova_act_forecast (days : Int) (b : BrowserBehavior)
    (headless take_screenshot : Bool) : Json × List String :=
  match b.startSession with
  | .error e =>
    (Json.obj (JsonObj.cons "success" (Json.bool false)
      (JsonObj.cons "message" (Json.str ("Error retrieving forecast: " ++ e))
      (JsonObj.cons "error" (Json.str e) JsonObj.nil))), [])
  | .ok _ =>
    match b.act forecastInstruction with
    | .error e =>
      (Json.obj (JsonObj.cons "success" (Json.bool false)
        (JsonObj.cons "message" (Json.str ("Error retrieving forecast: " ++ e))
        (JsonObj.cons "error" (Json.str e) JsonObj.nil))), [forecastInstruction])
    | .ok response =>
      let screenshot_result : Option Json :=
        if take_screenshot then some (capture_screenshot b "hk_forecast") else none
      (Json.obj (JsonObj.cons "success" (Json.bool true)
        (JsonObj.cons "message"
          (Json.str ("Successfully retrieved " ++ String.mk (intChars days) ++
            "-day forecast for Hong Kong"))
        (JsonObj.cons "forecast_data" (Json.str response)
        (JsonObj.cons "screenshot_path"
          (match screenshot_result with
           | some r => r.get "screenshot_path"
           | none => Json.null) JsonObj.nil)))), [forecastInstruction])

/-- Embedding of run_nova_act_warnings (Python defaults: headless=False,
take_screenshot=True). -/
def run_nova_act_warnings (b : BrowserBehavior)
    (headless take_screenshot : Bool) : Json × List String :=
  match b.startSession with
  | .error e =>
    (Json.obj (JsonObj.cons "success" (Json.bool false)
      (JsonObj.cons "message" (Json.str ("Error retrieving weather warnings: " ++ e))
      (JsonObj.cons "error" (Json.str e) JsonObj.nil))), [])
  | .ok _ =>
    match b.act warningsInstruction with
    | .error e =>
      (Json.obj (JsonObj.cons "success" (Json.bool false)
        (JsonObj.cons "message" (Json.str ("Error retrieving weather warnings: " ++ e))
        (JsonObj.cons "error" (Json.str e) JsonObj.nil))), [warningsInstruction])
    | .ok response =>
      let screenshot_result : Option Json :=
        if take_screenshot then some (capture_screenshot b "hk_warnings") else none
      (Json.obj (JsonObj.cons "success" (Json.bool true)
        (JsonObj.cons "message"
          (Json.str "Successfully retrieved weather warnings for Hong Kong")
        (JsonObj.cons "warnings_data" (Json.str response)
        (JsonObj.cons "screenshot_path"
          (match screenshot_result with
           | some r => r.get "screenshot_path"
           | none => Json.null) JsonObj.nil)))), [warningsInstruction])

/-- Embedding of the MCP tool get_hk_current_weather: submits the run to the
worker pool and returns its result verbatim (the pool is transparent to the
returned value; its own exception handler is unreachable in the model). -/
def get_hk_current_weather (b : BrowserBehavior)
    (headless take_screenshot : Bool) : Json × List String :=
  run_nova_act_current_weather b headless take_screenshot

/-- Embedding of the MCP tool get_hk_forecast: passes days through to
run_nova_act_forecast and returns its result verbatim. -/
def get_hk_forecast (days : Int) (b : BrowserBehavior)
    (headless take_screenshot : Bool) : Json × List String :=
  run_nova_act_forecast days b headless take_screenshot

/-- Embedding of the MCP tool get_hk_weather_warnings. -/
def get_hk_weather_warnings (b : BrowserBehavior)
    (headless take_screenshot : Bool) : Json × List String :=
  run_nova_act_warnings b headless take_screenshot

/-! ## Orchestration Loop (client side)

The MCP session and the Bedrock endpoint are external; session.call_tool is
an oracle mapping tool name and arguments to a result envelope, and the
model is an oracle giving the initial converse reply and each follow-up
reply (or an exception).  The embeddings return, besides the rendered
answer, the list of observable effects (tool calls and follow-up model
calls) the run issues. -/

/-- Observable effect of one orchestration run. -/
inductive Event where
  | toolCall (name : String) (args : Json) : Event
  | followUpConverse : Event
deriving DecidableEq

/-- Number of session.call_tool invocations recorded in a trace. -/
def countToolCalls : List Event → Nat
  | [] => 0
  | Event.toolCall _ _ :: evs => countToolCalls evs + 1
  | Event.followUpConverse :: evs => countToolCalls evs

/-- Number of follow-up model calls recorded in a trace. -/
def countFollowUps : List Event → Nat
  | [] => 0
  | Event.toolCall _ _ :: evs => countFollowUps evs
  | Event.followUpConverse :: evs => countFollowUps evs + 1

/-- The fixed argument dict the keyword dispatcher passes on every tool
call: headless False, take_screenshot True. -/
def directArgs : Json :=
  Json.obj (JsonObj.cons "headless" (Json.bool false)
    (JsonObj.cons "take_screenshot" (Json.bool true) JsonObj.nil))

/-- Rendering of the current-weather branch of process_query_direct and of
HKWeatherMCPClient.process_query (identical in both files). -/
def renderCurrent (response_data : Json) : String :=
  match response_data with
  | Json.obj kvs =>
    if (kvs.getD "success" Json.null).truthy then
      "Current Weather in Hong Kong:\n\n" ++
        pyStr (kvs.getD "weather_data" (Json.str "No weather data available")) ++
        "\n\nA screenshot has been saved to: " ++
        pyStr (kvs.getD "screenshot_path" (Json.str "No screenshot available"))
    else "Error retrieving current weather: " ++ pyStr (kvs.getD "error" (Json.str ""))
  | other => "Error retrieving current weather: " ++ pyStr other

/-- Rendering of the forecast branch of process_query_direct. -/
def renderForecast (response_data : Json) : String :=
  match response_data with
  | Json.obj kvs =>
    if (kvs.getD "success" Json.null).truthy then
      "9-Day Weather Forecast for Hong Kong:\n\n" ++
        pyStr (kvs.getD "forecast_data" (Json.str "No forecast data available")) ++
        "\n\nA screenshot has been saved to: " ++
        pyStr (kvs.getD "screenshot_path" (Json.str "No screenshot available"))
    else "Error retrieving forecast: " ++ pyStr (kvs.getD "error" (Json.str ""))
  | other => "Error retrieving forecast: " ++ pyStr other

/-- Rendering of the warnings branch of process_query_direct and of
HKWeatherMCPClient.process_query (identical in both files). -/
def renderWarnings (response_data : Json) : String :=
  match response_data with
  | Json.obj kvs =>
    if (kvs.getD "success" Json.null).truthy then
      "Weather Warnings for Hong Kong:\n\n" ++
        pyStr (kvs.getD "warnings_data" (Json.str "No warnings data available")) ++
        "\n\nA screenshot has been saved to: " ++
        pyStr (kvs.getD "screenshot_path" (Json.str "No screenshot available"))
    else "Error retrieving weather warnings: " ++ pyStr (kvs.getD "error" (Json.str ""))
  | other => "Error retrieving weather warnings: " ++ pyStr other

/-- Rendering of the default (unclear-query) branch of process_query_direct
and of HKWeatherMCPClient.process_query: no screenshot line and a generic
error verb phrase. -/
def renderUnclear (response_data : Json) : String :=
  match response_data with
  | Json.obj kvs =>
    if (kvs.getD "success" Json.null).truthy then
      "Current Weather in Hong Kong:\n\n" ++
        pyStr (kvs.getD "weather_data" (Json.str "No weather data available"))
    else "Error retrieving weather information: " ++ pyStr (kvs.getD "error" (Json.str ""))
  | other => "Error retrieving weather information: " ++ pyStr other

/-- Embedding of AgenticWeatherAssistant.process_query_direct: inspect the
lowercased query for keywords in fixed priority, make exactly one tool call,
extract the response and render the fixed per-category template.  The event
list records the tool calls issued. -/
def process_query_direct (query : String)
    (call_tool : String → Json → ToolResponse) : String × List Event :=
  if pyIn "current" (pyLower query) || pyIn "now" (pyLower query) ||
      pyIn "today" (pyLower query) then
    (renderCurrent (extract_response_data (call_tool "get_hk_current_weather" directArgs)),
      [Event.toolCall "get_hk_current_weather" directArgs])
  else if pyIn "forecast" (pyLower query) || pyIn "week" (pyLower query) ||
      pyIn "days" (pyLower query) || pyIn "tomorrow" (pyLower query) then
    (renderForecast (extract_response_data (call_tool "get_hk_forecast" directArgs)),
      [Event.toolCall "get_hk_forecast" directArgs])
  else if pyIn "warning" (pyLower query) || pyIn "alert" (pyLower query) then
    (renderWarnings (extract_response_data (call_tool "get_hk_weather_warnings" directArgs)),
      [Event.toolCall "get_hk_weather_warnings" directArgs])
  else
    (renderUnclear (extract_response_data (call_tool "get_hk_current_weather" directArgs)),
      [Event.toolCall "get_hk_current_weather" directArgs])

/-- The four branches of the keyword dispatcher as written in the code
(three keyword groups in fixed priority, then the default branch). -/
inductive Category where
  | current : Category
  | forecast : Category
  | warnings : Category
  | unclear : Category
deriving DecidableEq

/-- The branch process_query_direct (and HKWeatherMCPClient.process_query)
takes for a query, extracted from the if/elif chain of the code. -/
def codeBranch (query : String) : Category :=
  if pyIn "current" (pyLower query) || pyIn "now" (pyLower query) ||
      pyIn "today" (pyLower query) then Category.current
  else if pyIn "forecast" (pyLower query) || pyIn "week" (pyLower query) ||
      pyIn "days" (pyLower query) || pyIn "tomorrow" (pyLower query) then Category.forecast
  else if pyIn "warning" (pyLower query) || pyIn "alert" (pyLower query) then
    Category.warnings
  else Category.unclear

/-- The tool each branch of the code calls. -/
def toolForBranch : Category → String
  | Category.current => "get_hk_current_weather"
  | Category.forecast => "get_hk_forecast"
  | Category.warnings => "get_hk_weather_warnings"
  | Category.unclear => "get_hk_current_weather"

/-- Stated from the specification's wording of keyword dispatch (section
4.4): inspect the lowercased query for category keywords in fixed priority,
current before forecast before warnings, otherwise default to current.
Kept separate from the code embedding so the two can be compared. -/
def specDispatchCategory (query : String) : Category :=
  if pyIn "current" (pyLower query) || pyIn "now" (pyLower query) ||
      pyIn "today" (pyLower query) then Category.current
  else if pyIn "forecast" (pyLower query) || pyIn "week" (pyLower query) ||
      pyIn "days" (pyLower query) || pyIn "tomorrow" (pyLower query) then Category.forecast
  else if pyIn "warning" (pyLower query) || pyIn "alert" (pyLower query) then
    Category.warnings
  else Category.current

/-- The tool the specification assigns to each category. -/
def specToolFor : Category → String
  | Category.current => "get_hk_current_weather"
  | Category.forecast => "get_hk_forecast"
  | Category.warnings => "get_hk_weather_warnings"
  | Category.unclear => "get_hk_current_weather"

/-! ### The non-LLM client (hk_weather_mcp_client.py) -/

/-- Format one forecast day's lines; fails (models the caught KeyError or
TypeError) when a day is not a dict or lacks the date key. -/
def formatDays : JsonList → Option String
  | JsonList.nil => some ""
  | JsonList.cons day tl =>
    match day with
    | Json.obj kvs =>
      match kvs.lookup "date" with
      | some date =>
        match formatDays tl with
        | some restTxt =>
          some ("Date: " ++ pyStr date ++ "\n" ++
            "Temperature: " ++ pyStr (kvs.getD "daytime_temperature" (Json.str "N/A")) ++
            "°C - " ++ pyStr (kvs.getD "nighttime_temperature" (Json.str "N/A")) ++ "\n" ++
            "Humidity: " ++ pyStr (kvs.getD "humidity" (Json.str "N/A")) ++ "\n" ++
            "Weather: " ++ pyStr (kvs.getD "weather" (Json.str "N/A")) ++
            " chance of rain\n" ++
            "----------------------------------------\n" ++ restTxt)
        | none => none
      | none => none
    | _ => none

/-- Embedding of HKWeatherMCPClient.format_forecast_data: parse the nested
JSON string and format the 9-day forecast table; any exception (non-string
input, parse failure, non-list days, a day without a date key) is caught
and the input is returned unchanged. -/
def format_forecast_data (forecast_data_json : Json) : Json :=
  match forecast_data_json with
  | Json.str s =>
    match json_loads s with
    | some (Json.obj kvs) =>
      match kvs.lookup "9-day_weather_forecast" with
      | some (Json.arr days) =>
        match formatDays days with
        | some txt => Json.str txt
        | none => forecast_data_json
      | some _ => forecast_data_json
      | none => forecast_data_json
    | _ => forecast_data_json
  | _ => forecast_data_json

/-- Rendering of the forecast branch of HKWeatherMCPClient.process_query:
the forecast data is first passed through format_forecast_data, and the
template has a single newline before the screenshot line. -/
def renderForecastClient (response_data : Json) : String :=
  match response_data with
  | Json.obj kvs =>
    if (kvs.getD "success" Json.null).truthy then
      "9-Day Weather Forecast for Hong Kong:\n\n" ++
        pyStr (format_forecast_data
          (kvs.getD "forecast_data" (Json.str "No forecast data available"))) ++
        "\nA screenshot has been saved to: " ++
        pyStr (kvs.getD "screenshot_path" (Json.str "No screenshot available"))
    else "Error retrieving forecast: " ++ pyStr (kvs.getD "error" (Json.str ""))
  | other => "Error retrieving forecast: " ++ pyStr other

/-- Embedding of HKWeatherMCPClient.process_query: the same keyword dispatch
as process_query_direct; only the forecast branch renders differently. -/
def process_query (query : String)
    (call_tool : String → Json → ToolResponse) : String × List Event :=
  if pyIn "current" (pyLower query) || pyIn "now" (pyLower query) ||
      pyIn "today" (pyLower query) then
    (renderCurrent (extract_response_data (call_tool "get_hk_current_weather" directArgs)),
      [Event.toolCall "get_hk_current_weather" directArgs])
  else if pyIn "forecast" (pyLower query) || pyIn "week" (pyLower query) ||
      pyIn "days" (pyLower query) || pyIn "tomorrow" (pyLower query) then
    (renderForecastClient (extract_response_data (call_tool "get_hk_forecast" directArgs)),
      [Event.toolCall "get_hk_forecast" directArgs])
  else if pyIn "warning" (pyLower query) || pyIn "alert" (pyLower query) then
    (renderWarnings (extract_response_data (call_tool "get_hk_weather_warnings" directArgs)),
      [Event.toolCall "get_hk_weather_warnings" directArgs])
  else
    (renderUnclear (extract_response_data (call_tool "get_hk_current_weather" directArgs)),
      [Event.toolCall "get_hk_current_weather" directArgs])

/-! ### The LLM-directed client (agentic_weather_assistant.py) -/

/-- A tool description as stored by connect_to_server. -/
structure ToolSpec where
  name : String
  description : String
  input_schema : Json

/-- One content block of a Bedrock converse reply: a text block, a tool-use
request, or a block with neither key (skipped by the loop). -/
inductive Block where
  | text (s : String) : Block
  | toolUse (name : String) (input : Json) (toolUseId : String) : Block
  | other : Block

/-- A Bedrock converse reply: the ordered content blocks of the output
message. -/
structure Reply where
  blocks : List Block

/-- Oracles for one process_query_with_llm run: the MCP session, the initial
converse outcome, and the outcome of the k-th follow-up converse call. -/
structure LLMEnv where
  call_tool : String → Json → ToolResponse
  converse : Except String Reply
  followUp : Nat → Except String Reply

/-- Number of tool-use blocks in a reply's content. -/
def toolUseCount : List Block → Nat
  | [] => 0
  | Block.toolUse _ _ _ :: bs => toolUseCount bs + 1
  | _ :: bs => toolUseCount bs

/-- The inner per-content-block loop of process_query_with_llm: a text block
accumulates its text; a tool-use block appends the calling note, makes
exactly one tool call, normalizes its result into the tool-result message,
then makes exactly one follow-up model call and accumulates its first text
block.  An exception in the follow-up call, or in indexing its reply's
first content block, aborts the loop (to be caught by the surrounding
handler); the trace of events so far is preserved. -/
def runBlocks (call_tool : String → Json → ToolResponse)
    (followUp : Nat → Except String Reply) :
    List Block → List String → List Event → Nat →
      Except (List Event) (List String × List Event)
  | [], acc, evs, _ => Except.ok (acc, evs)
  | Block.text s :: bs, acc, evs, k =>
    runBlocks call_tool followUp bs (acc ++ [s]) evs k
  | Block.other :: bs, acc, evs, k => runBlocks call_tool followUp bs acc evs k
  | Block.toolUse name input _ :: bs, acc, evs, k =>
    let acc1 := acc ++ ["[Calling tool " ++ name ++ "]"]
    let result_content := extract_response_data (call_tool name input)
    let evs1 := evs ++ [Event.toolCall name input, Event.followUpConverse]
    match followUp k with
    | Except.error _ => Except.error evs1
    | Except.ok r =>
      match r.blocks with
      | Block.text s :: _ => runBlocks call_tool followUp bs (acc1 ++ [s]) evs1 (k + 1)
      | _ => Except.error evs1

/-- Embedding of AgenticWeatherAssistant.process_query_with_llm: if no tools
are available return the fixed message; otherwise converse, walk the
reply's content blocks, and on any exception in the model call or the loop
fall back to process_query_direct for the same query. -/
def process_query_with_llm (query : String) (available_tools : List ToolSpec)
    (env : LLMEnv) : String × List Event :=
  if available_tools.isEmpty then ("No tools available on the server.", [])
  else
    match env.converse with
    | Except.error _ => process_query_direct query env.call_tool
    | Except.ok response_message =>
      match runBlocks env.call_tool env.followUp response_message.blocks [] [] 0 with
      | Except.ok (final_responses, evs) =>
        (String.intercalate "\n" final_responses, evs)
      | Except.error evs =>
        let p := process_query_direct query env.call_tool
        (p.1, evs ++ p.2)

/-- A follow-up model reply the loop can consume without raising: returned
successfully and carrying a text first content block. -/
def goodFollowUp : Except String Reply → Prop
  | Except.ok r =>
    match r.blocks with
    | Block.text _ :: _ => True
    | _ => False
  | Except.error _ => False

/-- The first string occurs before the second inside the third. -/
def followedBy (s a b : String) : Prop := ∃ x y z, s = x ++ a ++ y ++ b ++ z

/-- An envelope with a usable content list: a non-empty content list whose
first element carries non-empty text. -/
def usableContent (resp : ToolResponse) : Prop :=
  ∃ item rest t, resp.content = some (item :: rest) ∧ item.text = some t ∧ t ≠ ""

/-- An exception is raised somewhere inside a fetch run modelled by the
given oracles: during session setup, during the extraction act, or (when a
screenshot was requested) during capture. -/
def fetchRaises (b : BrowserBehavior) (instr name : String)
    (take_screenshot : Bool) : Prop :=
  (∃ e, b.startSession = Except.error e) ∨
  (b.startSession = Except.ok () ∧ ∃ e, b.act instr = Except.error e) ∨
  (b.startSession = Except.ok () ∧ (∃ r, b.act instr = Except.ok r) ∧
    take_screenshot = true ∧ ∃ e, b.screenshot name = Except.error e)

/-- A fetch result that is a tagged failure with a non-empty error string. -/
def failsWithNonemptyError (r : Json) : Prop :=
  r.get "success" = Json.bool false ∧ ∃ e, e ≠ "" ∧ r.get "error" = Json.str e

/-! ## Dispatch helper lemmas -/

theorem process_query_direct_events (query : String)
    (call_tool : String → Json → ToolResponse) :
    (process_query_direct query call_tool).2 =
      [Event.toolCall (toolForBranch (codeBranch query)) directArgs] := by
  unfold process_query_direct codeBranch
  split_ifs <;> rfl

theorem process_query_events (query : String)
    (call_tool : String → Json → ToolResponse) :
    (process_query query call_tool).2 =
      [Event.toolCall (toolForBranch (codeBranch query)) directArgs] := by
  unfold process_query codeBranch
  split_ifs <;> rfl

theorem process_query_direct_current_output (query : String)
    (call_tool : String → Json → ToolResponse)
    (h : codeBranch query = Category.current) :
    (process_query_direct query call_tool).1 =
      renderCurrent (extract_response_data
        (call_tool "get_hk_current_weather" directArgs)) := by
  unfold codeBranch at h
  unfold process_query_direct
  split_ifs at h ⊢ <;> first | rfl | exact absurd h (by decide)

theorem process_query_direct_forecast_output (query : String)
    (call_tool : String → Json → ToolResponse)
    (h : codeBranch query = Category.forecast) :
    (process_query_direct query call_tool).1 =
      renderForecast (extract_response_data
        (call_tool "get_hk_forecast" directArgs)) := by
  unfold codeBranch at h
  unfold process_query_direct
  split_ifs at h ⊢ <;> first | rfl | exact absurd h (by decide)

theorem process_query_direct_warnings_output (query : String)
    (call_tool : String → Json → ToolResponse)
    (h : codeBranch query = Category.warnings) :
    (process_query_direct query call_tool).1 =
      renderWarnings (extract_response_data
        (call_tool "get_hk_weather_warnings" directArgs)) := by
  unfold codeBranch at h
  unfold process_query_direct
  split_ifs at h ⊢ <;> first | rfl | exact absurd h (by decide)

theorem process_query_direct_unclear_output (query : String)
    (call_tool : String → Json → ToolResponse)
    (h : codeBranch query = Category.unclear) :
    (process_query_direct query call_tool).1 =
      renderUnclear (extract_response_data
        (call_tool "get_hk_current_weather" directArgs)) := by
  unfold codeBranch at h
  unfold process_query_direct
  split_ifs at h ⊢ <;> first | rfl | exact absurd h (by decide)

/-! ## Claim theorems -/

/-- C2: Keyword dispatch is a deterministic total function from the query
string to exactly one category, inspecting the lowercased query in fixed
priority order (current before forecast before warnings, defaulting to
current), and exactly one tool call is made per query; the keyword-free
query "xyz" dispatches to the current-weather tool.  Stated for both
process_query_direct and HKWeatherMCPClient.process_query, and the
spec-worded dispatcher agrees with the code's branch on every query. -/
theorem C2_keyword_dispatch_total :
    (∀ (query : String) (call_tool : String → Json → ToolResponse),
        (process_query_direct query call_tool).2 =
          [Event.toolCall (toolForBranch (codeBranch query)) directArgs] ∧
        (process_query query call_tool).2 =
          [Event.toolCall (toolForBranch (codeBranch query)) directArgs]) ∧
    (∀ query : String,
        specToolFor (specDispatchCategory query) = toolForBranch (codeBranch query)) ∧
    toolForBranch (codeBranch "xyz") = "get_hk_current_weather" := by
  refine ⟨fun query call_tool =>
    ⟨process_query_direct_events query call_tool, process_query_events query call_tool⟩,
    fun query => ?_, by decide⟩
  unfold specDispatchCategory codeBranch
  split_ifs <;> rfl

/-- C9: keyword matching is plain substring containment on the lowercased
query, not word-boundary matching: any query containing "know" (or
"nowadays") contains the keyword "now" and so dispatches to the
current-weather tool, the current check running before the forecast
check. -/
theorem C9_substring_not_word_boundary :
    (∀ (query : String) (call_tool : String → Json → ToolResponse),
        hasSub "know".data query.data →
        (process_query_direct query call_tool).2 =
          [Event.toolCall "get_hk_current_weather" directArgs]) ∧
    (∀ (query : String) (call_tool : String → Json → ToolResponse),
        hasSub "nowadays".data query.data →
        (process_query_direct query call_tool).2 =
          [Event.toolCall "get_hk_current_weather" directArgs]) ∧
    codeBranch "nowadays" = Category.current := by
  have key : ∀ query : String, pyIn "now" (pyLower query) = true →
      codeBranch query = Category.current := by
    intro query h
    unfold codeBranch
    rw [h]
    simp
  have viaNow : ∀ (query : String) (pat : List Char),
      hasSub "now".data pat → pat.map Char.toLower = pat →
      hasSub pat query.data → pyIn "now" (pyLower query) = true := by
    intro query pat hnp hlow hpq
    have h1 : hasSub (pat.map Char.toLower) (query.data.map Char.toLower) :=
      hasSub_map Char.toLower hpq
    rw [hlow] at h1
    have h2 : hasSub "now".data (query.data.map Char.toLower) := hasSub_trans hnp h1
    exact (seqContains_iff _ _).mpr h2
  refine ⟨?_, ?_, by decide⟩
  · intro query call_tool h
    rw [process_query_direct_events,
      key query (viaNow query "know".data ⟨['k'], [], by decide⟩ (by decide) h)]
    rfl
  · intro query call_tool h
    rw [process_query_direct_events,
      key query (viaNow query "nowadays".data ⟨[], "adays".data, by decide⟩ (by decide) h)]
    rfl

/-- Witness for C9 at the concrete query "Do you know". -/
theorem C9_witness :
    hasSub "know".data "Do you know".data ∧
    (process_query_direct "Do you know" (fun _ _ => ⟨none, none⟩)).2 =
      [Event.toolCall "get_hk_current_weather" directArgs] := by
  have h : hasSub "know".data "Do you know".data := ⟨"Do you ".data, [], by decide⟩
  exact ⟨h, C9_substring_not_word_boundary.1 "Do you know" _ h⟩

/-- C3: normalizer round trip: for every JSON value v, normalizing an
envelope whose content list's first element carries the serialization of v
as its text returns v exactly; in particular the cited concrete envelope
normalizes to the object with success true and weather_data "X". -/
theorem C3_normalizer_round_trip :
    (∀ (v : Json) (more : List ContentItem) (val : Option Json),
        extract_response_data ⟨some (⟨some (json_dumps v)⟩ :: more), val⟩ = v) ∧
    extract_response_data
        ⟨some [⟨some "\x7b\"success\":true,\"weather_data\":\"X\"\x7d"⟩], none⟩ =
      Json.obj (JsonObj.cons "success" (Json.bool true)
        (JsonObj.cons "weather_data" (Json.str "X") JsonObj.nil)) := by
  constructor
  · intro v more val
    have hne : ¬ (json_dumps v = "") := json_dumps_ne_empty v
    simp [extract_response_data, hne, json_loads_dumps v]
  · rfl

/-- C4: normalizer degradation: an envelope exposing neither a usable
content list nor a value field normalizes to the tagged default failure;
an envelope whose first content text is not valid JSON normalizes to a
tagged failure carrying the parse-error message, without raising. -/
theorem C4_normalizer_degradation :
    (∀ resp : ToolResponse, ¬ usableContent resp → resp.value = none →
        extract_response_data resp =
          Json.obj (JsonObj.cons "success" (Json.bool false)
            (JsonObj.cons "error" (Json.str "Could not extract response data")
              JsonObj.nil))) ∧
    (∀ (t : String) (more : List ContentItem) (val : Option Json),
        json_loads t = none → t ≠ "" →
        extract_response_data ⟨some (⟨some t⟩ :: more), val⟩ =
          Json.obj (JsonObj.cons "success" (Json.bool false)
            (JsonObj.cons "error" (Json.str (jsonDecodeErrorMsg t)) JsonObj.nil))) := by
  constructor
  · rintro ⟨content, value⟩ hnu hv
    simp only at hv
    subst hv
    match content with
    | none => rfl
    | some [] => rfl
    | some (⟨none⟩ :: rest) => rfl
    | some (⟨some t⟩ :: rest) =>
      by_cases ht : t = ""
      · subst ht
        rfl
      · exact absurd ⟨⟨some t⟩, rest, t, rfl, rfl, ht⟩ hnu
  · intro t more val hparse ht
    simp [extract_response_data, ht, hparse]

/-- Witness for C4: the empty envelope and an invalid-JSON envelope. -/
theorem C4_witness :
    (¬ usableContent ⟨none, none⟩) ∧
    extract_response_data ⟨none, none⟩ =
      Json.obj (JsonObj.cons "success" (Json.bool false)
        (JsonObj.cons "error" (Json.str "Could not extract response data")
          JsonObj.nil)) ∧
    json_loads "notjson" = none ∧
    extract_response_data ⟨some [⟨some "notjson"⟩], none⟩ =
      Json.obj (JsonObj.cons "success" (Json.bool false)
        (JsonObj.cons "error" (Json.str (jsonDecodeErrorMsg "notjson"))
          JsonObj.nil)) := by
  have hnu : ¬ usableContent ⟨none, none⟩ := by
    rintro ⟨item, rest, t, h, -, -⟩
    simp at h
  exact ⟨hnu, C4_normalizer_degradation.1 ⟨none, none⟩ hnu rfl, by decide,
    C4_normalizer_degradation.2 "notjson" [] none (by decide) (by decide)⟩

/-- C7: if the initial model call raises, process_query_with_llm falls back
to keyword dispatch for the same query; the result is exactly the direct
dispatch result and so cannot surface the transport fault. -/
theorem C7_model_fault_fallback (query : String) (tools : List ToolSpec)
    (env : LLMEnv) (e : String) (htools : tools ≠ [])
    (herr : env.converse = Except.error e) :
    process_query_with_llm query tools env =
      process_query_direct query env.call_tool := by
  have hne : tools.isEmpty = false := by
    cases tools with
    | nil => exact absurd rfl htools
    | cons a as => rfl
  unfold process_query_with_llm
  rw [hne, herr]
  simp

/-- Witness for C7 at a concrete faulting model endpoint. -/
theorem C7_witness :
    ([⟨"get_hk_current_weather", "tool", Json.null⟩] : List ToolSpec) ≠ [] ∧
    process_query_with_llm "hello" [⟨"get_hk_current_weather", "tool", Json.null⟩]
        ⟨fun _ _ => ⟨none, none⟩, Except.error "transport down",
          fun _ => Except.error "x"⟩ =
      process_query_direct "hello" (fun _ _ => ⟨none, none⟩) := by
  refine ⟨by simp, ?_⟩
  exact C7_model_fault_fallback "hello" _ _ "transport down" (by simp) rfl

/-- C5 as stated is false on the code: a screenshot-capture exception is
caught inside capture_screenshot and the fetch still returns success true
(no error field), not a failure value.  Concrete counterexample: session ok,
extraction returns "sunny", capture raises "screenshot timeout". -/
theorem C5_counterexample :
    ¬ (∀ (b : BrowserBehavior) (headless take_screenshot : Bool) (days : Int),
        (fetchRaises b currentWeatherInstruction "hk_current_weather" take_screenshot →
          failsWithNonemptyError
            (run_nova_act_current_weather b headless take_screenshot).1) ∧
        (fetchRaises b forecastInstruction "hk_forecast" take_screenshot →
          failsWithNonemptyError
            (run_nova_act_forecast days b headless take_screenshot).1) ∧
        (fetchRaises b warningsInstruction "hk_warnings" take_screenshot →
          failsWithNonemptyError
            (run_nova_act_warnings b headless take_screenshot).1)) := by
  intro h
  have h1 := (h ⟨Except.ok (), fun _ => Except.ok "sunny",
    fun _ => Except.error "screenshot timeout"⟩ false true 9).1
  have h2 := h1 (Or.inr (Or.inr ⟨rfl, ⟨"sunny", rfl⟩, rfl, ⟨"screenshot timeout", rfl⟩⟩))
  have h3 : (run_nova_act_current_weather
      ⟨Except.ok (), fun _ => Except.ok "sunny",
        fun _ => Except.error "screenshot timeout"⟩ false true).1.get "success" =
      Json.bool true := rfl
  have h4 := h2.1
  rw [h3] at h4
  exact absurd h4 (by decide)

/-- C5 amended: an exception during session setup or during the extraction
act is caught and converted into a returned failure with success false and
the exception message as error (non-empty whenever the message is); a
capture exception is also caught (never propagates) but the fetch then
still returns success true, as C6 states. -/
theorem C5_amended_fetch_fault_isolation (b : BrowserBehavior)
    (headless take_screenshot : Bool) (days : Int) (m : String) (hm : m ≠ "") :
    ((b.startSession = Except.error m ∨
      (b.startSession = Except.ok () ∧
        b.act currentWeatherInstruction = Except.error m)) →
      failsWithNonemptyError
        (run_nova_act_current_weather b headless take_screenshot).1) ∧
    ((b.startSession = Except.error m ∨
      (b.startSession = Except.ok () ∧ b.act forecastInstruction = Except.error m)) →
      failsWithNonemptyError (run_nova_act_forecast days b headless take_screenshot).1) ∧
    ((b.startSession = Except.error m ∨
      (b.startSession = Except.ok () ∧ b.act warningsInstruction = Except.error m)) →
      failsWithNonemptyError (run_nova_act_warnings b headless take_screenshot).1) ∧
    (∀ r, b.startSession = Except.ok () →
      b.act currentWeatherInstruction = Except.ok r →
      b.screenshot "hk_current_weather" = Except.error m →
      (run_nova_act_current_weather b headless true).1.get "success" =
        Json.bool true) := by
  refine ⟨?_, ?_, ?_, ?_⟩
  · rintro (hss | ⟨hss, hact⟩)
    · refine ⟨?_, m, hm, ?_⟩ <;>
        simp [run_nova_act_current_weather, hss, Json.get, JsonObj.getD, JsonObj.lookup]
    · refine ⟨?_, m, hm, ?_⟩ <;>
        simp [run_nova_act_current_weather, hss, hact, Json.get, JsonObj.getD,
          JsonObj.lookup]
  · rintro (hss | ⟨hss, hact⟩)
    · refine ⟨?_, m, hm, ?_⟩ <;>
        simp [run_nova_act_forecast, hss, Json.get, JsonObj.getD, JsonObj.lookup]
    · refine ⟨?_, m, hm, ?_⟩ <;>
        simp [run_nova_act_forecast, hss, hact, Json.get, JsonObj.getD, JsonObj.lookup]
  · rintro (hss | ⟨hss, hact⟩)
    · refine ⟨?_, m, hm, ?_⟩ <;>
        simp [run_nova_act_warnings, hss, Json.get, JsonObj.getD, JsonObj.lookup]
    · refine ⟨?_, m, hm, ?_⟩ <;>
        simp [run_nova_act_warnings, hss, hact, Json.get, JsonObj.getD, JsonObj.lookup]
  · intro r hss hact hsc
    simp [run_nova_act_current_weather, hss, hact, Json.get, JsonObj.getD,
      JsonObj.lookup]

/-- Witness for the amended C5 at a concrete raising behavior. -/
theorem C5_amended_witness :
    ("boom" : String) ≠ "" ∧
    failsWithNonemptyError
      (run_nova_act_current_weather
        ⟨Except.error "boom", fun _ => Except.ok "x", fun _ => Except.ok "p"⟩
        false true).1 := by
  refine ⟨by decide, ?_⟩
  exact (C5_amended_fetch_fault_isolation
    ⟨Except.error "boom", fun _ => Except.ok "x", fun _ => Except.ok "p"⟩
    false true 9 "boom" (by decide)).1 (Or.inl rfl)

/-- C6: for every fetch with take_screenshot true, if extraction succeeds
but capture raises, the fetch still returns success true with the category
data populated and screenshot_path null; the capture failure is recorded as
capture_screenshot's own failure dict and does not fail the fetch. -/
theorem C6_screenshot_sub_error (b : BrowserBehavior) (headless : Bool)
    (days : Int) (resp m : String) (hss : b.startSession = Except.ok ()) :
    (b.act currentWeatherInstruction = Except.ok resp →
      b.screenshot "hk_current_weather" = Except.error m →
      (run_nova_act_current_weather b headless true).1 =
        Json.obj (JsonObj.cons "success" (Json.bool true)
          (JsonObj.cons "message"
            (Json.str "Successfully retrieved current weather in Hong Kong")
          (JsonObj.cons "weather_data" (Json.str resp)
          (JsonObj.cons "screenshot_path" Json.null JsonObj.nil)))) ∧
      capture_screenshot b "hk_current_weather" =
        Json.obj (JsonObj.cons "error" (Json.str m)
          (JsonObj.cons "success" (Json.bool false) JsonObj.nil))) ∧
    (b.act forecastInstruction = Except.ok resp →
      b.screenshot "hk_forecast" = Except.error m →
      (run_nova_act_forecast days b headless true).1 =
        Json.obj (JsonObj.cons "success" (Json.bool true)
          (JsonObj.cons "message"
            (Json.str ("Successfully retrieved " ++ String.mk (intChars days) ++
              "-day forecast for Hong Kong"))
          (JsonObj.cons "forecast_data" (Json.str resp)
          (JsonObj.cons "screenshot_path" Json.null JsonObj.nil)))) ∧
      capture_screenshot b "hk_forecast" =
        Json.obj (JsonObj.cons "error" (Json.str m)
          (JsonObj.cons "success" (Json.bool false) JsonObj.nil))) ∧
    (b.act warningsInstruction = Except.ok resp →
      b.screenshot "hk_warnings" = Except.error m →
      (run_nova_act_warnings b headless true).1 =
        Json.obj (JsonObj.cons "success" (Json.bool true)
          (JsonObj.cons "message"
            (Json.str "Successfully retrieved weather warnings for Hong Kong")
          (JsonObj.cons "warnings_data" (Json.str resp)
          (JsonObj.cons "screenshot_path" Json.null JsonObj.nil)))) ∧
      capture_screenshot b "hk_warnings" =
        Json.obj (JsonObj.cons "error" (Json.str m)
          (JsonObj.cons "success" (Json.bool false) JsonObj.nil))) := by
  refine ⟨fun hact hsc => ⟨?_, ?_⟩, fun hact hsc => ⟨?_, ?_⟩, fun hact hsc => ⟨?_, ?_⟩⟩
  · simp [run_nova_act_current_weather, capture_screenshot, hss, hact, hsc,
      Json.get, JsonObj.getD, JsonObj.lookup]
  · simp [capture_screenshot, hsc]
  · simp [run_nova_act_forecast, capture_screenshot, hss, hact, hsc,
      Json.get, JsonObj.getD, JsonObj.lookup]
  · simp [capture_screenshot, hsc]
  · simp [run_nova_act_warnings, capture_screenshot, hss, hact, hsc,
      Json.get, JsonObj.getD, JsonObj.lookup]
  · simp [capture_screenshot, hsc]

/-- Witness for C6 at a concrete capture-failing behavior. -/
theorem C6_witness :
    (⟨Except.ok (), fun _ => Except.ok "Sunny", fun _ => Except.error "timeout"⟩ :
        BrowserBehavior).startSession = Except.ok () ∧
    (run_nova_act_current_weather
        ⟨Except.ok (), fun _ => Except.ok "Sunny", fun _ => Except.error "timeout"⟩
        false true).1 =
      Json.obj (JsonObj.cons "success" (Json.bool true)
        (JsonObj.cons "message"
          (Json.str "Successfully retrieved current weather in Hong Kong")
        (JsonObj.cons "weather_data" (Json.str "Sunny")
        (JsonObj.cons "screenshot_path" Json.null JsonObj.nil)))) := by
  refine ⟨rfl, ?_⟩
  exact ((C6_screenshot_sub_error
    ⟨Except.ok (), fun _ => Except.ok "Sunny", fun _ => Except.error "timeout"⟩
    false 9 "Sunny" "timeout" rfl).1 rfl rfl).1

/-- C10: the days argument of the forecast fetch does not interfere with the
success flag, the forecast data, the screenshot path, or the instructions
issued to the browser; it only appears in the human-readable success
message, and the extraction instruction is always the fixed 9-day one; the
MCP tool get_hk_forecast passes days through unchanged. -/
theorem C10_days_noninterference (d1 d2 : Int) (b : BrowserBehavior)
    (headless take_screenshot : Bool) :
    ((run_nova_act_forecast d1 b headless take_screenshot).1.get "success" =
      (run_nova_act_forecast d2 b headless take_screenshot).1.get "success" ∧
     (run_nova_act_forecast d1 b headless take_screenshot).1.get "forecast_data" =
      (run_nova_act_forecast d2 b headless take_screenshot).1.get "forecast_data" ∧
     (run_nova_act_forecast d1 b headless take_screenshot).1.get "screenshot_path" =
      (run_nova_act_forecast d2 b headless take_screenshot).1.get "screenshot_path") ∧
    (run_nova_act_forecast d1 b headless take_screenshot).2 =
      (run_nova_act_forecast d2 b headless take_screenshot).2 ∧
    (∀ instr, instr ∈ (run_nova_act_forecast d1 b headless take_screenshot).2 →
      instr = forecastInstruction) ∧
    (∀ resp, b.startSession = Except.ok () →
      b.act forecastInstruction = Except.ok resp →
      (run_nova_act_forecast d1 b headless take_screenshot).1.get "message" =
        Json.str ("Successfully retrieved " ++ String.mk (intChars d1) ++
          "-day forecast for Hong Kong")) ∧
    get_hk_forecast d1 b headless take_screenshot =
      run_nova_act_forecast d1 b headless take_screenshot := by
  rcases hss : b.startSession with e | u
  · refine ⟨⟨?_, ?_, ?_⟩, ?_, ?_, ?_, rfl⟩
    · simp [run_nova_act_forecast, hss]
    · simp [run_nova_act_forecast, hss]
    · simp [run_nova_act_forecast, hss]
    · simp [run_nova_act_forecast, hss]
    · intro instr h
      simp [run_nova_act_forecast, hss] at h
    · intro resp h
      simp at h
  · rcases hact : b.act forecastInstruction with e | resp0
    · refine ⟨⟨?_, ?_, ?_⟩, ?_, ?_, ?_, rfl⟩
      · simp [run_nova_act_forecast, hss, hact]
      · simp [run_nova_act_forecast, hss, hact]
      · simp [run_nova_act_forecast, hss, hact]
      · simp [run_nova_act_forecast, hss, hact]
      · intro instr h
        simp [run_nova_act_forecast, hss, hact] at h
        exact h
      · intro resp h1 h2
        simp at h2
    · refine ⟨⟨?_, ?_, ?_⟩, ?_, ?_, ?_, rfl⟩
      · simp [run_nova_act_forecast, hss, hact, Json.get, JsonObj.getD, JsonObj.lookup]
      · simp [run_nova_act_forecast, hss, hact, Json.get, JsonObj.getD, JsonObj.lookup]
      · simp [run_nova_act_forecast, hss, hact, Json.get, JsonObj.getD, JsonObj.lookup]
      · simp [run_nova_act_forecast, hss, hact]
      · intro instr h
        simp [run_nova_act_forecast, hss, hact] at h
        exact h
      · intro resp h1 h2
        simp [run_nova_act_forecast, hss, hact, Json.get, JsonObj.getD, JsonObj.lookup]

/-- Witness for C10 at a concrete healthy behavior and days 9 versus 3. -/
theorem C10_witness :
    (⟨Except.ok (), fun _ => Except.ok "cloudy", fun _ => Except.ok "/tmp/f.png"⟩ :
        BrowserBehavior).startSession = Except.ok () ∧
    (run_nova_act_forecast 9
        ⟨Except.ok (), fun _ => Except.ok "cloudy", fun _ => Except.ok "/tmp/f.png"⟩
        false true).1.get "message" =
      Json.str ("Successfully retrieved " ++ String.mk (intChars 9) ++
        "-day forecast for Hong Kong") := by
  refine ⟨rfl, ?_⟩
  exact (C10_days_noninterference 9 3
    ⟨Except.ok (), fun _ => Except.ok "cloudy", fun _ => Except.ok "/tmp/f.png"⟩
    false true).2.2.2.1 "cloudy" rfl rfl

/-! ## Lemmas for the model-directed dispatch loop -/

theorem countToolCalls_append (a b : List Event) :
    countToolCalls (a ++ b) = countToolCalls a + countToolCalls b := by
  induction a with
  | nil => simp [countToolCalls]
  | cons x xs ih => cases x <;> simp [countToolCalls, ih] <;> omega

theorem countFollowUps_append (a b : List Event) :
    countFollowUps (a ++ b) = countFollowUps a + countFollowUps b := by
  induction a with
  | nil => simp [countFollowUps]
  | cons x xs ih => cases x <;> simp [countFollowUps, ih] <;> omega

theorem runBlocks_no_toolUse (call_tool : String → Json → ToolResponse)
    (followUp : Nat → Except String Reply) :
    ∀ (bs : List Block) (acc : List String) (evs : List Event) (k : Nat),
      toolUseCount bs = 0 →
      ∃ acc', runBlocks call_tool followUp bs acc evs k = Except.ok (acc', evs) := by
  intro bs
  induction bs with
  | nil => intro acc evs k _; exact ⟨acc, rfl⟩
  | cons b bs ih =>
    intro acc evs k h
    cases b with
    | text s =>
      obtain ⟨acc', heq⟩ := ih (acc ++ [s]) evs k (by simpa [toolUseCount] using h)
      exact ⟨acc', by simpa [runBlocks] using heq⟩
    | toolUse n i id => simp [toolUseCount] at h
    | other =>
      obtain ⟨acc', heq⟩ := ih acc evs k (by simpa [toolUseCount] using h)
      exact ⟨acc', by simpa [runBlocks] using heq⟩

theorem runBlocks_good (call_tool : String → Json → ToolResponse)
    (followUp : Nat → Except String Reply) :
    ∀ (bs : List Block) (acc : List String) (evs : List Event) (k : Nat),
      (∀ j, k ≤ j → j < k + toolUseCount bs → goodFollowUp (followUp j)) →
      ∃ acc' evs',
        runBlocks call_tool followUp bs acc evs k = Except.ok (acc', evs') ∧
        countToolCalls evs' = countToolCalls evs + toolUseCount bs ∧
        countFollowUps evs' = countFollowUps evs + toolUseCount bs := by
  intro bs
  induction bs with
  | nil =>
    intro acc evs k _
    exact ⟨acc, evs, rfl, by simp [toolUseCount], by simp [toolUseCount]⟩
  | cons b bs ih =>
    intro acc evs k h
    cases b with
    | text s =>
      obtain ⟨a', e', heq, h1, h2⟩ :=
        ih (acc ++ [s]) evs k (by simpa [toolUseCount] using h)
      exact ⟨a', e', by simpa [runBlocks] using heq,
        by simpa [toolUseCount] using h1, by simpa [toolUseCount] using h2⟩
    | other =>
      obtain ⟨a', e', heq, h1, h2⟩ := ih acc evs k (by simpa [toolUseCount] using h)
      exact ⟨a', e', by simpa [runBlocks] using heq,
        by simpa [toolUseCount] using h1, by simpa [toolUseCount] using h2⟩
    | toolUse n i id =>
      have hcnt : toolUseCount (Block.toolUse n i id :: bs) = toolUseCount bs + 1 := by
        simp [toolUseCount]
      have hg : goodFollowUp (followUp k) := h k (le_refl k) (by omega)
      rcases hfk : followUp k with e | r
      · rw [hfk] at hg
        exact absurd hg (by simp [goodFollowUp])
      · rw [hfk] at hg
        simp only [goodFollowUp] at hg
        rcases hbl : r.blocks with _ | ⟨b0, rest⟩
        · rw [hbl] at hg
          exact hg.elim
        · cases b0 with
          | text s2 =>
            obtain ⟨a', e', heq, h1, h2⟩ :=
              ih ((acc ++ ["[Calling tool " ++ n ++ "]"]) ++ [s2])
                (evs ++ [Event.toolCall n i, Event.followUpConverse]) (k + 1)
                (fun j hj1 hj2 => h j (by omega) (by omega))
            refine ⟨a', e', ?_, ?_, ?_⟩
            · rw [runBlocks, hfk]
              simp only [hbl]
              exact heq
            · rw [h1, countToolCalls_append]
              simp [countToolCalls, toolUseCount]
              omega
            · rw [h2, countFollowUps_append]
              simp [countFollowUps, toolUseCount]
              omega
          | toolUse n2 i2 id2 =>
            rw [hbl] at hg
            exact hg.elim
          | other =>
            rw [hbl] at hg
            exact hg.elim

/-- Events of a (possibly aborted) run of the block loop. -/
def runEvents : Except (List Event) (List String × List Event) → List Event
  | Except.ok (_, evs) => evs
  | Except.error evs => evs

theorem runBlocks_counts (call_tool : String → Json → ToolResponse)
    (followUp : Nat → Except String Reply) :
    ∀ (bs : List Block) (acc : List String) (evs : List Event) (k : Nat),
      ∃ d,
        countToolCalls (runEvents (runBlocks call_tool followUp bs acc evs k)) =
          countToolCalls evs + d ∧
        countFollowUps (runEvents (runBlocks call_tool followUp bs acc evs k)) =
          countFollowUps evs + d := by
  intro bs
  induction bs with
  | nil => intro acc evs k; exact ⟨0, by simp [runBlocks, runEvents], by simp [runBlocks, runEvents]⟩
  | cons b bs ih =>
    intro acc evs k
    cases b with
    | text s =>
      obtain ⟨d, h1, h2⟩ := ih (acc ++ [s]) evs k
      exact ⟨d, by simpa [runBlocks] using h1, by simpa [runBlocks] using h2⟩
    | other =>
      obtain ⟨d, h1, h2⟩ := ih acc evs k
      exact ⟨d, by simpa [runBlocks] using h1, by simpa [runBlocks] using h2⟩
    | toolUse n i id =>
      rcases hfk : followUp k with e | r
      · refine ⟨1, ?_, ?_⟩ <;>
          · rw [runBlocks, hfk]
            simp [runEvents, countToolCalls_append, countFollowUps_append,
              countToolCalls, countFollowUps]
      · rcases hbl : r.blocks with _ | ⟨b0, rest⟩
        · refine ⟨1, ?_, ?_⟩ <;>
            · rw [runBlocks, hfk]
              simp only [hbl]
              simp [runEvents, countToolCalls_append, countFollowUps_append,
                countToolCalls, countFollowUps]
        · cases b0 with
          | text s2 =>
            obtain ⟨d, h1, h2⟩ :=
              ih ((acc ++ ["[Calling tool " ++ n ++ "]"]) ++ [s2])
                (evs ++ [Event.toolCall n i, Event.followUpConverse]) (k + 1)
            refine ⟨d + 1, ?_, ?_⟩
            · rw [runBlocks, hfk]
              simp only [hbl]
              rw [h1, countToolCalls_append]
              simp [countToolCalls]
              omega
            · rw [runBlocks, hfk]
              simp only [hbl]
              rw [h2, countFollowUps_append]
              simp [countFollowUps]
              omega
          | toolUse n2 i2 id2 =>
            refine ⟨1, ?_, ?_⟩ <;>
              · rw [runBlocks, hfk]
                simp only [hbl]
                simp [runEvents, countToolCalls_append, countFollowUps_append,
                  countToolCalls, countFollowUps]
          | other =>
            refine ⟨1, ?_, ?_⟩ <;>
              · rw [runBlocks, hfk]
                simp only [hbl]
                simp [runEvents, countToolCalls_append, countFollowUps_append,
                  countToolCalls, countFollowUps]

/-- C1: in model-directed dispatch, a reply with zero tool-use blocks never
calls the Tool Registry; with well-formed follow-up replies each tool-use
block triggers exactly one tool call and exactly one follow-up model call;
and in every run (including aborted ones that fall back) the number of
follow-up model calls never exceeds the number of tool invocations. -/
theorem C1_model_directed_dispatch (query : String) (tools : List ToolSpec)
    (env : LLMEnv) (reply : Reply) (htools : tools ≠ [])
    (hconv : env.converse = Except.ok reply) :
    (toolUseCount reply.blocks = 0 →
      countToolCalls (process_query_with_llm query tools env).2 = 0) ∧
    ((∀ k, k < toolUseCount reply.blocks → goodFollowUp (env.followUp k)) →
      countToolCalls (process_query_with_llm query tools env).2 =
        toolUseCount reply.blocks ∧
      countFollowUps (process_query_with_llm query tools env).2 =
        toolUseCount reply.blocks) ∧
    countFollowUps (process_query_with_llm query tools env).2 ≤
      countToolCalls (process_query_with_llm query tools env).2 := by
  have hne : tools.isEmpty = false := by
    cases tools with
    | nil => exact absurd rfl htools
    | cons a as => rfl
  have hpq : process_query_with_llm query tools env =
      (match runBlocks env.call_tool env.followUp reply.blocks [] [] 0 with
        | Except.ok (final_responses, evs) =>
          (String.intercalate "\n" final_responses, evs)
        | Except.error evs =>
          ((process_query_direct query env.call_tool).1,
            evs ++ (process_query_direct query env.call_tool).2)) := by
    unfold process_query_with_llm
    rw [hne, hconv]
    simp
  refine ⟨?_, ?_, ?_⟩
  · intro h0
    obtain ⟨acc', heq⟩ :=
      runBlocks_no_toolUse env.call_tool env.followUp reply.blocks [] [] 0 h0
    rw [hpq, heq]
    rfl
  · intro hgood
    obtain ⟨a', e', heq, h1, h2⟩ :=
      runBlocks_good env.call_tool env.followUp reply.blocks [] [] 0
        (fun j _ hj => hgood j (by omega))
    rw [hpq, heq]
    simp only [countToolCalls, countFollowUps] at h1 h2
    exact ⟨by simpa using h1, by simpa using h2⟩
  · obtain ⟨d, h1, h2⟩ :=
      runBlocks_counts env.call_tool env.followUp reply.blocks [] [] 0
    rcases hr : runBlocks env.call_tool env.followUp reply.blocks [] [] 0
      with evs1 | ⟨fr, evs1⟩
    · rw [hr] at h1 h2
      simp only [runEvents] at h1 h2
      rw [hpq, hr]
      simp only [countToolCalls_append, countFollowUps_append,
        process_query_direct_events]
      simp [countToolCalls, countFollowUps] at h1 h2 ⊢
      omega
    · rw [hr] at h1 h2
      simp only [runEvents] at h1 h2
      rw [hpq, hr]
      simp [countToolCalls, countFollowUps] at h1 h2 ⊢
      omega

/-- Witness for C1 at a concrete one-tool-use reply with a well-formed
follow-up. -/
theorem C1_witness :
    (([⟨"get_hk_current_weather", "tool", Json.null⟩] : List ToolSpec) ≠ []) ∧
    countToolCalls (process_query_with_llm "hi"
      [⟨"get_hk_current_weather", "tool", Json.null⟩]
      ⟨fun _ _ => ⟨none, none⟩,
        Except.ok ⟨[Block.text "a",
          Block.toolUse "get_hk_current_weather" directArgs "id1"]⟩,
        fun _ => Except.ok ⟨[Block.text "done"]⟩⟩).2 = 1 ∧
    countFollowUps (process_query_with_llm "hi"
      [⟨"get_hk_current_weather", "tool", Json.null⟩]
      ⟨fun _ _ => ⟨none, none⟩,
        Except.ok ⟨[Block.text "a",
          Block.toolUse "get_hk_current_weather" directArgs "id1"]⟩,
        fun _ => Except.ok ⟨[Block.text "done"]⟩⟩).2 = 1 := by
  have h := C1_model_directed_dispatch "hi"
    [⟨"get_hk_current_weather", "tool", Json.null⟩]
    ⟨fun _ _ => ⟨none, none⟩,
      Except.ok ⟨[Block.text "a",
        Block.toolUse "get_hk_current_weather" directArgs "id1"]⟩,
      fun _ => Except.ok ⟨[Block.text "done"]⟩⟩
    ⟨[Block.text "a", Block.toolUse "get_hk_current_weather" directArgs "id1"]⟩
    (by simp) rfl
  have h2 := h.2.1 (fun k _ => by simp [goodFollowUp])
  exact ⟨by simp, by simpa [toolUseCount] using h2.1,
    by simpa [toolUseCount] using h2.2⟩

/-- C8: for every keyword-dispatched query whose fetch succeeds, the
rendered answer is the fixed per-category template (heading, raw payload
text, and the screenshot-path note in the three keyword branches; the
default branch's fixed template has heading and payload text only); in
particular for "What's the weather today?" with payload weather_data
"Sunny, 28°C" the output contains the literal heading followed by the
payload text; on failure the answer is one line prefixed with the
category-specific verb phrase, for each of the four branches. -/
theorem C8_output_rendering :
    (∀ (call_tool : String → Json → ToolResponse) (wd sp : String),
        extract_response_data (call_tool "get_hk_current_weather" directArgs) =
          Json.obj (JsonObj.cons "success" (Json.bool true)
            (JsonObj.cons "weather_data" (Json.str wd)
            (JsonObj.cons "screenshot_path" (Json.str sp) JsonObj.nil))) →
        (process_query_direct "What\x27s the weather today?" call_tool).1 =
          "Current Weather in Hong Kong:\n\n" ++ wd ++
            "\n\nA screenshot has been saved to: " ++ sp) ∧
    (∀ (query : String) (call_tool : String → Json → ToolResponse) (kvs : JsonObj),
        codeBranch query = Category.current →
        extract_response_data (call_tool "get_hk_current_weather" directArgs) =
          Json.obj kvs →
        (kvs.getD "success" Json.null).truthy = false →
        (process_query_direct query call_tool).1 =
          "Error retrieving current weather: " ++
            pyStr (kvs.getD "error" (Json.str ""))) ∧
    (∀ (query : String) (call_tool : String → Json → ToolResponse) (wd sp : String),
        codeBranch query = Category.current →
        extract_response_data (call_tool "get_hk_current_weather" directArgs) =
          Json.obj (JsonObj.cons "success" (Json.bool true)
            (JsonObj.cons "weather_data" (Json.str wd)
            (JsonObj.cons "screenshot_path" (Json.str sp) JsonObj.nil))) →
        (process_query_direct query call_tool).1 =
          "Current Weather in Hong Kong:\n\n" ++ wd ++
            "\n\nA screenshot has been saved to: " ++ sp) ∧
    (∀ (query : String) (call_tool : String → Json → ToolResponse) (fd sp : String),
        codeBranch query = Category.forecast →
        extract_response_data (call_tool "get_hk_forecast" directArgs) =
          Json.obj (JsonObj.cons "success" (Json.bool true)
            (JsonObj.cons "forecast_data" (Json.str fd)
            (JsonObj.cons "screenshot_path" (Json.str sp) JsonObj.nil))) →
        (process_query_direct query call_tool).1 =
          "9-Day Weather Forecast for Hong Kong:\n\n" ++ fd ++
            "\n\nA screenshot has been saved to: " ++ sp) ∧
    (∀ (query : String) (call_tool : String → Json → ToolResponse) (kvs : JsonObj),
        codeBranch query = Category.forecast →
        extract_response_data (call_tool "get_hk_forecast" directArgs) =
          Json.obj kvs →
        (kvs.getD "success" Json.null).truthy = false →
        (process_query_direct query call_tool).1 =
          "Error retrieving forecast: " ++ pyStr (kvs.getD "error" (Json.str ""))) ∧
    (∀ (query : String) (call_tool : String → Json → ToolResponse) (wa sp : String),
        codeBranch query = Category.warnings →
        extract_response_data (call_tool "get_hk_weather_warnings" directArgs) =
          Json.obj (JsonObj.cons "success" (Json.bool true)
            (JsonObj.cons "warnings_data" (Json.str wa)
            (JsonObj.cons "screenshot_path" (Json.str sp) JsonObj.nil))) →
        (process_query_direct query call_tool).1 =
          "Weather Warnings for Hong Kong:\n\n" ++ wa ++
            "\n\nA screenshot has been saved to: " ++ sp) ∧
    (∀ (query : String) (call_tool : String → Json → ToolResponse) (kvs : JsonObj),
        codeBranch query = Category.warnings →
        extract_response_data (call_tool "get_hk_weather_warnings" directArgs) =
          Json.obj kvs →
        (kvs.getD "success" Json.null).truthy = false →
        (process_query_direct query call_tool).1 =
          "Error retrieving weather warnings: " ++
            pyStr (kvs.getD "error" (Json.str ""))) ∧
    (∀ (query : String) (call_tool : String → Json → ToolResponse) (wd sp : String),
        codeBranch query = Category.unclear →
        extract_response_data (call_tool "get_hk_current_weather" directArgs) =
          Json.obj (JsonObj.cons "success" (Json.bool true)
            (JsonObj.cons "weather_data" (Json.str wd)
            (JsonObj.cons "screenshot_path" (Json.str sp) JsonObj.nil))) →
        (process_query_direct query call_tool).1 =
          "Current Weather in Hong Kong:\n\n" ++ wd) ∧
    (∀ (query : String) (call_tool : String → Json → ToolResponse) (kvs : JsonObj),
        codeBranch query = Category.unclear →
        extract_response_data (call_tool "get_hk_current_weather" directArgs) =
          Json.obj kvs →
        (kvs.getD "success" Json.null).truthy = false →
        (process_query_direct query call_tool).1 =
          "Error retrieving weather information: " ++
            pyStr (kvs.getD "error" (Json.str ""))) ∧
    followedBy
      (process_query_direct "What\x27s the weather today?"
        (fun _ _ => ⟨none, some (Json.obj (JsonObj.cons "success" (Json.bool true)
          (JsonObj.cons "weather_data" (Json.str "Sunny, 28°C") JsonObj.nil)))⟩)).1
      "Current Weather in Hong Kong:" "Sunny, 28°C" := by
  refine ⟨?_, ?_, ?_, ?_, ?_, ?_, ?_, ?_, ?_, ?_⟩
  · intro call_tool wd sp hx
    rw [process_query_direct_current_output _ _ (by decide), hx]
    rfl
  · intro query call_tool kvs hbr hx hfail
    rw [process_query_direct_current_output _ _ hbr, hx]
    simp [renderCurrent, hfail]
  · intro query call_tool wd sp hbr hx
    rw [process_query_direct_current_output _ _ hbr, hx]
    rfl
  · intro query call_tool fd sp hbr hx
    rw [process_query_direct_forecast_output _ _ hbr, hx]
    rfl
  · intro query call_tool kvs hbr hx hfail
    rw [process_query_direct_forecast_output _ _ hbr, hx]
    simp [renderForecast, hfail]
  · intro query call_tool wa sp hbr hx
    rw [process_query_direct_warnings_output _ _ hbr, hx]
    rfl
  · intro query call_tool kvs hbr hx hfail
    rw [process_query_direct_warnings_output _ _ hbr, hx]
    simp [renderWarnings, hfail]
  · intro query call_tool wd sp hbr hx
    rw [process_query_direct_unclear_output _ _ hbr, hx]
    rfl
  · intro query call_tool kvs hbr hx hfail
    rw [process_query_direct_unclear_output _ _ hbr, hx]
    simp [renderUnclear, hfail]
  · exact ⟨"", "\n\n",
      "\n\nA screenshot has been saved to: No screenshot available", by decide⟩

/-- Witness for C8 at concrete envelopes, one per branch: a successful
current-weather fetch for the cited query, a successful forecast,
successful warnings, a successful default-branch fetch, and a failing
forecast fetch. -/
theorem C8_witness :
    extract_response_data
        ((fun _ _ => (⟨none, some (Json.obj (JsonObj.cons "success" (Json.bool true)
            (JsonObj.cons "weather_data" (Json.str "Sunny, 28°C")
            (JsonObj.cons "screenshot_path" (Json.str "/tmp/hk.png")
              JsonObj.nil))))⟩ : ToolResponse) :
          String → Json → ToolResponse) "get_hk_current_weather" directArgs) =
      Json.obj (JsonObj.cons "success" (Json.bool true)
        (JsonObj.cons "weather_data" (Json.str "Sunny, 28°C")
        (JsonObj.cons "screenshot_path" (Json.str "/tmp/hk.png") JsonObj.nil))) ∧
    (process_query_direct "What\x27s the weather today?"
        (fun _ _ => ⟨none, some (Json.obj (JsonObj.cons "success" (Json.bool true)
          (JsonObj.cons "weather_data" (Json.str "Sunny, 28°C")
          (JsonObj.cons "screenshot_path" (Json.str "/tmp/hk.png")
            JsonObj.nil))))⟩)).1 =
      "Current Weather in Hong Kong:\n\nSunny, 28°C" ++
        "\n\nA screenshot has been saved to: /tmp/hk.png" ∧
    codeBranch "forecast please" = Category.forecast ∧
    (process_query_direct "forecast please"
        (fun _ _ => ⟨none, some (Json.obj (JsonObj.cons "success" (Json.bool true)
          (JsonObj.cons "forecast_data" (Json.str "Rainy")
          (JsonObj.cons "screenshot_path" (Json.str "/tmp/f.png")
            JsonObj.nil))))⟩)).1 =
      "9-Day Weather Forecast for Hong Kong:\n\nRainy" ++
        "\n\nA screenshot has been saved to: /tmp/f.png" ∧
    codeBranch "any alert" = Category.warnings ∧
    (process_query_direct "any alert"
        (fun _ _ => ⟨none, some (Json.obj (JsonObj.cons "success" (Json.bool true)
          (JsonObj.cons "warnings_data" (Json.str "No warnings")
          (JsonObj.cons "screenshot_path" (Json.str "/tmp/w.png")
            JsonObj.nil))))⟩)).1 =
      "Weather Warnings for Hong Kong:\n\nNo warnings" ++
        "\n\nA screenshot has been saved to: /tmp/w.png" ∧
    codeBranch "hello" = Category.unclear ∧
    (process_query_direct "hello"
        (fun _ _ => ⟨none, some (Json.obj (JsonObj.cons "success" (Json.bool true)
          (JsonObj.cons "weather_data" (Json.str "Sunny")
          (JsonObj.cons "screenshot_path" (Json.str "/tmp/u.png")
            JsonObj.nil))))⟩)).1 =
      "Current Weather in Hong Kong:\n\nSunny" ∧
    (process_query_direct "forecast please"
        (fun _ _ => ⟨none, some (Json.obj (JsonObj.cons "success" (Json.bool false)
          (JsonObj.cons "error" (Json.str "boom") JsonObj.nil)))⟩)).1 =
      "Error retrieving forecast: boom" := by
  refine ⟨rfl, ?_, by decide, ?_, by decide, ?_, by decide, ?_, ?_⟩
  · have h := C8_output_rendering.1
      (fun _ _ => ⟨none, some (Json.obj (JsonObj.cons "success" (Json.bool true)
        (JsonObj.cons "weather_data" (Json.str "Sunny, 28°C")
        (JsonObj.cons "screenshot_path" (Json.str "/tmp/hk.png") JsonObj.nil))))⟩)
      "Sunny, 28°C" "/tmp/hk.png" rfl
    rw [h]
    rfl
  · have h := C8_output_rendering.2.2.2.1 "forecast please"
      (fun _ _ => ⟨none, some (Json.obj (JsonObj.cons "success" (Json.bool true)
        (JsonObj.cons "forecast_data" (Json.str "Rainy")
        (JsonObj.cons "screenshot_path" (Json.str "/tmp/f.png") JsonObj.nil))))⟩)
      "Rainy" "/tmp/f.png" (by decide) rfl
    rw [h]
    rfl
  · have h := C8_output_rendering.2.2.2.2.2.1 "any alert"
      (fun _ _ => ⟨none, some (Json.obj (JsonObj.cons "success" (Json.bool true)
        (JsonObj.cons "warnings_data" (Json.str "No warnings")
        (JsonObj.cons "screenshot_path" (Json.str "/tmp/w.png") JsonObj.nil))))⟩)
      "No warnings" "/tmp/w.png" (by decide) rfl
    rw [h]
    rfl
  · have h := C8_output_rendering.2.2.2.2.2.2.2.1 "hello"
      (fun _ _ => ⟨none, some (Json.obj (JsonObj.cons "success" (Json.bool true)
        (JsonObj.cons "weather_data" (Json.str "Sunny")
        (JsonObj.cons "screenshot_path" (Json.str "/tmp/u.png") JsonObj.nil))))⟩)
      "Sunny" "/tmp/u.png" (by decide) rfl
    rw [h]
    rfl
  · have h := C8_output_rendering.2.2.2.2.1 "forecast please"
      (fun _ _ => ⟨none, some (Json.obj (JsonObj.cons "success" (Json.bool false)
        (JsonObj.cons "error" (Json.str "boom") JsonObj.nil)))⟩)
      (JsonObj.cons "success" (Json.bool false)
        (JsonObj.cons "error" (Json.str "boom") JsonObj.nil))
      (by decide) rfl (by decide)
    rw [h]
    rfl

end HKWeather
